import Mathlib

/-!
Verification of the SuperAgent execution core against its specification.

The Python sources under src/superagent are shallowly embedded here:
pure functions become Lean functions, stateful methods become explicit
state passing, machine floats that carry exact decimal arithmetic are
modelled with the rationals, and fallible code returns Except or Option.
External effects (network adapters, the vector store, the embedding
provider, wall-clock time, object identities) appear as explicit
function parameters of the embedded operations.
-/

namespace SuperAgent

/-! ## Generic association-list helpers (Python dict, insertion ordered) -/

/-- First-match lookup in an insertion-ordered association list,
mirroring a Python dict read. -/
def lookupA {β : Type} (l : List (String × β)) (k : String) : Option β :=
  (l.find? (fun p => p.1 == k)).map (fun p => p.2)

/-- Python dict assignment: update the entry in place when the key is
present, otherwise append it. -/
def dictSet {β : Type} (l : List (String × β)) (k : String) (v : β) : List (String × β) :=
  if (l.find? (fun p => p.1 == k)).isSome then
    l.map (fun p => if p.1 == k then (k, v) else p)
  else
    l ++ [(k, v)]

/-- Python dict upsert used by the fusion ranker: modify an existing
entry by a function of its current value, or insert a fresh one. -/
def dictUpsert {β : Type} (l : List (String × β)) (k : String) (f : Option β → β) :
    List (String × β) :=
  match lookupA l k with
  | some old => l.map (fun p => if p.1 == k then (k, f (some old)) else p)
  | none => l ++ [(k, f none)]

/-! ## Stable descending sort (model of Python list.sort(reverse=True)) -/

/-- Insert an element into a descending-sorted list, keeping it before the
first strictly smaller key; equal keys keep the incoming element first,
which together with `sortDescBy` models the stability of Python sort. -/
def insertDescBy {α : Type} {κ : Type} [LinearOrder κ] (f : α → κ) (x : α) :
    List α → List α
  | [] => [x]
  | y :: ys => if f y ≤ f x then x :: y :: ys else y :: insertDescBy f x ys

/-- Stable descending sort by key, modelling Python list.sort with a key
function and reverse=True. -/
def sortDescBy {α : Type} {κ : Type} [LinearOrder κ] (f : α → κ) : List α → List α
  | [] => []
  | x :: xs => insertDescBy f x (sortDescBy f xs)

/-! ## LLM request models (src/superagent/llm/models.py) -/

/-- A single chat message; the role is constrained by a Literal type in
the pydantic model, content is kept abstract as a string. -/
structure Message where
  role : String
  content : String
deriving DecidableEq

/-- The validated request record produced by a successful pydantic
construction of LLMRequest. Floats with exact decimal bounds are
modelled as rationals. Fields irrelevant to every claim (functions,
tools, metadata, ...) are omitted. -/
structure LLMRequest where
  model : String
  messages : List Message
  temperature : ℚ
  max_tokens : Option Int
  top_p : ℚ
  frequency_penalty : ℚ
  presence_penalty : ℚ
  stop : Option (List String)
  stream : Bool
deriving DecidableEq

/-- The pydantic input for the stop field: absent, a bare string, or a
list of strings. -/
inductive StopInput
  | absent
  | str (s : String)
  | strs (l : List String)
deriving DecidableEq

/-- The validate_stop field validator: a bare string is wrapped into a
one-element list, anything else passes through. -/
def validate_stop : StopInput → Option (List String)
  | .absent => none
  | .str s => some [s]
  | .strs l => some l

/-- The gt=0 constraint of max_tokens: true when a provided value is
non-positive. -/
def badMaxTokens : Option Int → Bool
  | some n => decide (n ≤ 0)
  | none => false

/-- The role Literal of the Message model. -/
def validRole (r : String) : Bool :=
  ["system", "user", "assistant", "function", "tool"].contains r

/-- Pydantic construction of LLMRequest: each field constraint from the
model declaration (ge/le/gt bounds, role literals) is checked, and the
stop validator is applied. There is no constraint on the messages list
itself beyond the element type. -/
def mk_llm_request (model : String) (messages : List Message) (temperature : ℚ)
    (max_tokens : Option Int) (top_p frequency_penalty presence_penalty : ℚ)
    (stop : StopInput) (stream : Bool) : Except String LLMRequest :=
  if ¬ messages.all (fun m => validRole m.role) then
    .error "message role must be one of the declared literals"
  else if ¬ (0 ≤ temperature ∧ temperature ≤ 2) then
    .error "temperature must be between 0 and 2"
  else if badMaxTokens max_tokens then
    .error "max_tokens must be greater than 0"
  else if ¬ (0 ≤ top_p ∧ top_p ≤ 1) then
    .error "top_p must be between 0 and 1"
  else if ¬ (-2 ≤ frequency_penalty ∧ frequency_penalty ≤ 2) then
    .error "frequency_penalty must be between -2 and 2"
  else if ¬ (-2 ≤ presence_penalty ∧ presence_penalty ≤ 2) then
    .error "presence_penalty must be between -2 and 2"
  else
    .ok { model := model, messages := messages, temperature := temperature,
          max_tokens := max_tokens, top_p := top_p,
          frequency_penalty := frequency_penalty,
          presence_penalty := presence_penalty,
          stop := validate_stop stop, stream := stream }

/-! ## Token counting fallback (src/superagent/llm/litellm_provider.py) -/

/-- count_tokens of the LiteLLM provider: delegate to the underlying
token counter; when it raises, fall back to integer floor division of
the text length by 4. The external litellm.token_counter is a
parameter. -/
def count_tokens (token_counter : String → String → Except String Nat)
    (model text : String) : Nat :=
  match token_counter model text with
  | .ok n => n
  | .error _ => text.length / 4

/-! ## Provider router (src/superagent/llm/provider.py, base.py) -/

/-- Integer request counters of ProviderMetrics; wall-clock latency and
floating-point cost accumulators are not modelled. -/
structure ProviderMetrics where
  total_requests : Nat
  successful_requests : Nat
  failed_requests : Nat
  last_error : Option String
deriving DecidableEq

/-- Fresh metrics of a newly constructed provider. -/
def ProviderMetrics.init : ProviderMetrics :=
  { total_requests := 0, successful_requests := 0, failed_requests := 0,
    last_error := none }

/-- BaseLLMProvider.update_metrics restricted to the counter fields. -/
def ProviderMetrics.update (m : ProviderMetrics) (success : Bool)
    (error : Option String) : ProviderMetrics :=
  { total_requests := m.total_requests + 1,
    successful_requests :=
      if success then m.successful_requests + 1 else m.successful_requests,
    failed_requests :=
      if success then m.failed_requests else m.failed_requests + 1,
    last_error := if success then m.last_error else error }

/-- The response returned by an adapter; only the fields the router
inspects are kept. -/
structure LLMResponse where
  id : String
  model : String
  content : String
  providerName : String
deriving DecidableEq

/-- A registered provider instance: its CHAT capability flag, its
adapter behaviour (the external network call, a parameter of the
embedding: either a response or a raised error message), and its
mutable metrics. -/
structure Provider where
  supportsChat : Bool
  behavior : LLMRequest → Except String LLMResponse
  metrics : ProviderMetrics

/-- ProviderConfig restricted to the fields the router reads. -/
structure ProviderConfig where
  name : String
  models : List String
  prio : Int
  enabled : Bool
deriving DecidableEq

/-- The UnifiedLLMProvider state: insertion-ordered registries of
provider instances, configurations, and the model-name map. -/
structure UnifiedLLMProvider where
  providers : List (String × Provider)
  configs : List ProviderConfig
  model_to_provider : List (String × String)

/-- Find a configuration by name (Python dict read keyed by name). -/
def findConfig (u : UnifiedLLMProvider) (n : String) : Option ProviderConfig :=
  u.configs.find? (fun c => c.name == n)

/-- A provider with its metrics counters advanced by one request. -/
def Provider.withMetrics (p : Provider) (success : Bool) (error : Option String) :
    Provider :=
  { p with metrics := p.metrics.update success error }

/-- In-place metrics update of the named provider instance. -/
def updateProviderMetrics (u : UnifiedLLMProvider) (n : String) (success : Bool)
    (error : Option String) : UnifiedLLMProvider :=
  { u with providers := u.providers.map (fun p =>
      if p.1 == n then (p.1, p.2.withMetrics success error) else p) }

/-- get_provider_for_model: direct map lookup first, then the first
registered provider whose name is a slash-separated model prefix. -/
def get_provider_for_model (u : UnifiedLLMProvider) (model : String) : Option String :=
  match lookupA u.model_to_provider model with
  | some n => some n
  | none =>
    (u.providers.find? (fun p => model.startsWith (p.1 ++ "/"))).map (fun p => p.1)

/-- Provider resolution at the top of generate: an explicit provider
name wins, otherwise the model is mapped. -/
def resolveProvider (u : UnifiedLLMProvider) (req : LLMRequest)
    (provider_name : Option String) : Option String :=
  match provider_name with
  | some n => some n
  | none => get_provider_for_model u req.model

/-- The candidate pass of get_fallback_providers: walk the config
registry in insertion order, skipping the primary, disabled entries,
unregistered instances, and providers lacking the CHAT capability that
generate requires. -/
def candidateOf (u : UnifiedLLMProvider) (primary : String) (c : ProviderConfig) :
    Option (String × Int) :=
  if c.name == primary || !c.enabled then none
  else
    match lookupA u.providers c.name with
    | none => none
    | some p => if !p.supportsChat then none else some (c.name, c.prio)

def fallbackCandidates (u : UnifiedLLMProvider) (primary : String) :
    List (String × Int) :=
  u.configs.filterMap (candidateOf u primary)

/-- get_fallback_providers: candidates stably sorted by descending
priority, names only. -/
def get_fallback_providers (u : UnifiedLLMProvider) (primary : String) : List String :=
  (sortDescBy (fun x => x.2) (fallbackCandidates u primary)).map (fun x => x.1)

/-- First configured model of a provider, the value written into
request.model before a fallback attempt. -/
def firstModel (u : UnifiedLLMProvider) (n : String) : Option String :=
  (findConfig u n).bind (fun c => c.models.head?)

/-- The configured priority of a provider (0 when unknown), used to
state the descending order of the fallback chain. -/
def prioOfName (u : UnifiedLLMProvider) (n : String) : Int :=
  ((findConfig u n).map (fun c => c.prio)).getD 0

/-- Adapter behaviour of a registered provider, invariant under metric
updates. -/
def behaviorOf (u : UnifiedLLMProvider) (n : String) :
    Option (LLMRequest → Except String LLMResponse) :=
  (lookupA u.providers n).map (fun p => p.behavior)

/-- Failed-request counter of a registered provider (0 when absent). -/
def failedCount (u : UnifiedLLMProvider) (n : String) : Nat :=
  ((lookupA u.providers n).map (fun p => p.metrics.failed_requests)).getD 0

/-- Successful-request counter of a registered provider (0 when absent). -/
def successCount (u : UnifiedLLMProvider) (n : String) : Nat :=
  ((lookupA u.providers n).map (fun p => p.metrics.successful_requests)).getD 0

/-- One observable adapter attempt made by generate: which provider was
invoked, with which request.model, and whether it succeeded. -/
structure Attempt where
  providerName : String
  model : String
  success : Bool
deriving DecidableEq

/-- The error object raised by generate, mirroring ProviderError. -/
structure ProviderErrorData where
  message : String
  providerName : String
  original_error : Option String
deriving DecidableEq

/-- Outcome of one execution of the generate body. -/
inductive GenOutcome
  | ok (resp : LLMResponse)
  | raised (e : ProviderErrorData)
deriving DecidableEq

/-- Result of one execution of the generate body: outcome, the updated
router state, the request object (generate mutates request.model in
place), and the trace of adapter attempts. -/
structure GenResult where
  outcome : GenOutcome
  state : UnifiedLLMProvider
  request : LLMRequest
  attempts : List Attempt

/-- The request.model rewrite performed before a fallback attempt:
when the fallback provider's configuration lists at least one model,
request.model is overwritten with the first one; otherwise the request
is passed on unchanged. -/
def rewriteForFallback (u : UnifiedLLMProvider) (fb : String) (req : LLMRequest) :
    LLMRequest :=
  match (findConfig u fb).map (fun c => c.models) with
  | some (m :: _) => { req with model := m }
  | _ => req

/-- The fallback loop of generate. For each fallback name (produced by
get_fallback_providers, hence registered — the lookup failure branch is
unreachable on real states and skips), rewrite request.model to the
provider's first configured model when it has one, make one adapter
attempt, record metrics, and stop at the first success. When the list
is exhausted, raise the all-providers-failed error carrying the
primary provider's error. -/
def fallbackLoop (primary errMsg : String) :
    List String → UnifiedLLMProvider → LLMRequest → List Attempt → GenResult
  | [], u, req, tr =>
    { outcome := .raised { message := "All providers failed. Last error: " ++ errMsg,
                           providerName := primary, original_error := some errMsg },
      state := u, request := req, attempts := tr }
  | fb :: rest, u, req, tr =>
    match lookupA u.providers fb with
    | none => fallbackLoop primary errMsg rest u req tr
    | some p =>
      let req' := rewriteForFallback u fb req
      match p.behavior req' with
      | .ok resp =>
        { outcome := .ok resp,
          state := updateProviderMetrics u fb true none,
          request := req',
          attempts := tr ++ [{ providerName := fb, model := req'.model, success := true }] }
      | .error e =>
        fallbackLoop primary errMsg rest
          (updateProviderMetrics u fb false (some e)) req'
          (tr ++ [{ providerName := fb, model := req'.model, success := false }])

/-- One execution of the UnifiedLLMProvider.generate body (the
async_retry wrapper re-runs this body when it raises; a body that
returns normally is executed exactly once). Resolve the provider, try
it, and on failure walk the fallback chain when enabled. -/
def generate (u : UnifiedLLMProvider) (req : LLMRequest)
    (provider_name : Option String) (enable_fallback : Bool) : GenResult :=
  match resolveProvider u req provider_name with
  | none =>
    { outcome := .raised { message := "No provider found for model: " ++ req.model,
                           providerName := "unknown", original_error := none },
      state := u, request := req, attempts := [] }
  | some pname =>
    match lookupA u.providers pname with
    | none =>
      { outcome := .raised { message := "Provider not registered: " ++ pname,
                             providerName := pname, original_error := none },
        state := u, request := req, attempts := [] }
    | some p =>
      match p.behavior req with
      | .ok resp =>
        { outcome := .ok resp,
          state := updateProviderMetrics u pname true none,
          request := req,
          attempts := [{ providerName := pname, model := req.model, success := true }] }
      | .error e =>
        let u1 := updateProviderMetrics u pname false (some e)
        let tr0 := [{ providerName := pname, model := req.model, success := false : Attempt }]
        if enable_fallback then
          fallbackLoop pname e (get_fallback_providers u pname) u1 req tr0
        else
          { outcome := .raised { message := "All providers failed. Last error: " ++ e,
                                 providerName := pname, original_error := some e },
            state := u1, request := req, attempts := tr0 }

/-! ## Event bus (src/superagent/orchestration/event_bus.py) -/

/-- An event; data and metadata payloads are claim-irrelevant and
omitted. Event types are carried as strings (the EventType enum values). -/
structure Event where
  id : String
  eventType : String
  source : String
  correlation_id : Option String
deriving DecidableEq

/-- A subscriber callback: an identity (Python object identity inside
the subscriber set) and an effect on an ambient state σ that may also
raise, returning an error message. -/
structure Handler (σ : Type) where
  hid : Nat
  run : Event → σ → σ × Option String

/-- The event bus state: per-type subscriber collections (the Python
set is modelled as its iteration order), bounded history. -/
structure EventBus (σ : Type) where
  subscribers : List (String × List (Handler σ))
  event_history : List Event
  max_history : Nat

/-- The subscribers registered for an event's type. -/
def subscribersFor {σ : Type} (bus : EventBus σ) (ev : Event) : List (Handler σ) :=
  (lookupA bus.subscribers ev.eventType).getD []

/-- notify_subscriber: run one callback; an exception is caught and
surfaced as a logged error, never re-raised. -/
def notify_subscriber {σ : Type} (h : Handler σ) (ev : Event) (st : σ) :
    σ × (Nat × Option String) :=
  ((h.run ev st).1, (h.hid, (h.run ev st).2))

/-- EventBus.publish: append the event to the bounded history, then
notify every subscriber of its type; each notification is independent
(errors are logged, recorded here as the returned log list, and do not
stop the fan-out). Returns the new bus, the ambient state after all
handlers ran, and one log entry per notified handler. -/
def fanoutStep {σ : Type} (ev : Event) (acc : σ × List (Nat × Option String))
    (h : Handler σ) : σ × List (Nat × Option String) :=
  ((notify_subscriber h ev acc.1).1, acc.2 ++ [(notify_subscriber h ev acc.1).2])

def publish {σ : Type} (bus : EventBus σ) (ev : Event) (st : σ) :
    EventBus σ × σ × List (Nat × Option String) :=
  let hist := bus.event_history ++ [ev]
  let hist2 := if bus.max_history < hist.length then hist.drop 1 else hist
  let folded := (subscribersFor bus ev).foldl (fanoutStep ev) (st, [])
  ({ bus with event_history := hist2 }, folded.1, folded.2)

/-- The per-handler log trail of one fan-out, in notification order:
handler identity and the error it raised, if any (threading the ambient
state left to right). Reference semantics used by the fan-out theorem. -/
def fanoutLogs {σ : Type} (ev : Event) : List (Handler σ) → σ → List (Nat × Option String)
  | [], _ => []
  | h :: hs, st => (h.hid, (h.run ev st).2) :: fanoutLogs ev hs (h.run ev st).1

/-! ## Adaptive memory (src/superagent/memory/adaptive_memory.py) -/

/-- The MemoryType enum. -/
inductive MemoryType
  | short_term
  | workingTier
  | long_term
  | episodicTier
  | semantic
deriving DecidableEq

/-- A memory item; datetime timestamps are modelled as rational hours
since an arbitrary epoch, embeddings as rational vectors. The metadata
dict, importance and access counters are claim-irrelevant and omitted. -/
structure MemoryItem where
  id : Option String
  content : String
  memory_type : MemoryType
  timestamp : ℚ
  embedding : Option (List ℚ)
deriving DecidableEq

/-- A scored search result. -/
structure MemoryResult where
  item : MemoryItem
  relevance_score : ℚ
deriving DecidableEq

/-- A retrieved context with its fusion score. -/
structure Context where
  content : String
  relevance_score : ℚ
  temporal_weight : ℚ
  source_type : MemoryType
deriving DecidableEq

/-- The mutable tiers of AdaptiveMemorySystem; the procedural skill
cache and the external vector store are not part of any claim. -/
structure AdaptiveMemorySystem where
  working_capacity : Nat
  episodic_capacity : Nat
  compression_threshold : Nat
  working : List MemoryItem
  episodic : List MemoryItem
  pending : List MemoryItem
deriving DecidableEq

/-- collections.deque(maxlen=cap).append: drop from the left when the
capacity is exceeded. -/
def dequeAppend {α : Type} (cap : Nat) (l : List α) (x : α) : List α :=
  let grown := l ++ [x]
  if cap < grown.length then grown.drop (grown.length - cap) else grown

/-- The Python slice l[-cap:] for a natural cap. For cap = 0 this is
l[0:] = l, the whole list — not the empty suffix. -/
def pyTailSlice {α : Type} (cap : Nat) (l : List α) : List α :=
  if cap = 0 then l else l.drop (l.length - cap)

/-- compress_and_archive: compress the pending buffer into one summary
item (the summary text assembly of compress_conversation feeds only
the content field and is abstracted as the summaryContent parameter,
as is the embedding provider), append it to the episodic tier as a
LONG_TERM item, clear the pending buffer, and evict the oldest
episodic entries beyond capacity via the l[-cap:] slice. -/
def compress_and_archive (summaryContent : List MemoryItem → String)
    (embed : String → List ℚ) (now : ℚ) (m : AdaptiveMemorySystem) :
    AdaptiveMemorySystem :=
  if m.pending.isEmpty then m
  else
    let summaryItem : MemoryItem :=
      { id := none, content := summaryContent m.pending,
        memory_type := .long_term, timestamp := now,
        embedding := some (embed (summaryContent m.pending)) }
    let grown := m.episodic ++ [summaryItem]
    let trimmed :=
      if m.episodic_capacity < grown.length then pyTailSlice m.episodic_capacity grown
      else grown
    { m with episodic := trimmed, pending := [] }

/-- AdaptiveMemorySystem.add: backfill a missing (or empty, hence
falsy) embedding, append to the working deque and the pending buffer,
and compress when the pending buffer has reached the threshold. The
vector-store id assigned after insertion is idNew (note the Python
object is shared by all tiers, so the id is visible everywhere). -/
def AdaptiveMemorySystem.add (summaryContent : List MemoryItem → String)
    (embed : String → List ℚ) (now : ℚ) (idNew : String)
    (m : AdaptiveMemorySystem) (item : MemoryItem) :
    AdaptiveMemorySystem × String :=
  let emb := if item.embedding.getD [] = [] then some (embed item.content) else item.embedding
  let stored := { item with embedding := emb, id := some idNew }
  let m1 := { m with working := dequeAppend m.working_capacity m.working stored,
                     pending := m.pending ++ [stored] }
  let m2 :=
    if m.compression_threshold ≤ m1.pending.length then
      compress_and_archive summaryContent embed now m1
    else m1
  (m2, idNew)

/-! ## Hybrid retrieval and fusion ranking -/

/-- Python str.split() over the single-space separator (an
approximation of the whitespace run splitter adequate for the embedded
scoring logic). -/
def pyWords (s : String) : List String :=
  (s.splitOn " ").filter (fun w => w ≠ "")

/-- sparse_search: BM25-style keyword overlap over the working tier.
The score of an item is the size of the set intersection of query and
content terms divided by the number of distinct query terms; items
without overlap are skipped, the rest sorted by descending score and
truncated. -/
def sparse_search (working : List MemoryItem) (query : String) (limit : Nat) :
    List MemoryResult :=
  let queryTerms := (pyWords query.toLower).dedup
  let results := working.filterMap (fun item =>
    let contentTerms := (pyWords item.content.toLower).dedup
    let overlap := (contentTerms.filter (fun t => queryTerms.contains t)).length
    if 0 < overlap then
      some { item := item, relevance_score := (overlap : ℚ) / (queryTerms.length : ℚ) }
    else none)
  (sortDescBy (fun r => r.relevance_score) results).take limit

/-- The dict key of a result item in the fusion ranker:
result.item.id or str(id(result.item)); a missing or empty (falsy) id
falls back to the Python object identity, modelled by the objId
parameter. -/
def itemKey (objId : MemoryItem → String) (it : MemoryItem) : String :=
  match it.id with
  | some s => if s = "" then objId it else s
  | none => objId it

/-- One row of the all_results dict built by fusion_rank. -/
structure FusionEntry where
  item : MemoryItem
  denseScore : ℚ
  denseRank : Nat
  sparseScore : ℚ
  sparseRank : Nat
deriving DecidableEq

/-- The dense pass of fusion_rank: enumerate dense results, assigning
each a row with its 0-based dense rank and a sparse rank one past the
end of the sparse list. -/
def denseFoldAux (objId : MemoryItem → String) (nSparse : Nat) :
    Nat → List MemoryResult → List (String × FusionEntry) → List (String × FusionEntry)
  | _, [], acc => acc
  | i, r :: rs, acc =>
    denseFoldAux objId nSparse (i + 1) rs
      (dictSet acc (itemKey objId r.item)
        { item := r.item, denseScore := r.relevance_score, denseRank := i,
          sparseScore := 0, sparseRank := nSparse })

/-- The sparse pass of fusion_rank: enumerate sparse results, updating
the row of an item already seen densely, otherwise inserting a row
with a dense rank one past the end of the dense list. -/
def sparseFoldAux (objId : MemoryItem → String) (nDense : Nat) :
    Nat → List MemoryResult → List (String × FusionEntry) → List (String × FusionEntry)
  | _, [], acc => acc
  | j, r :: rs, acc =>
    sparseFoldAux objId nDense (j + 1) rs
      (dictUpsert acc (itemKey objId r.item) (fun old =>
        match old with
        | some e => { e with sparseScore := r.relevance_score, sparseRank := j }
        | none =>
          { item := r.item, denseScore := 0, denseRank := nDense,
            sparseScore := r.relevance_score, sparseRank := j }))

/-- The dict keys of a result list, in order. -/
def memKeys (objId : MemoryItem → String) (l : List MemoryResult) : List String :=
  l.map (fun r => itemKey objId r.item)

/-- Reference semantics of the dense pass when all dense keys are
fresh: the rows it appends, in order. -/
def denseRows (objId : MemoryItem → String) (nSparse : Nat) :
    Nat → List MemoryResult → List (String × FusionEntry)
  | _, [] => []
  | i, r :: rs =>
    (itemKey objId r.item,
      { item := r.item, denseScore := r.relevance_score, denseRank := i,
        sparseScore := 0, sparseRank := nSparse }) ::
      denseRows objId nSparse (i + 1) rs

/-- The all_results dict of fusion_rank. -/
def fusionEntries (objId : MemoryItem → String) (dense sparse : List MemoryResult) :
    List (String × FusionEntry) :=
  sparseFoldAux objId dense.length 0 sparse
    (denseFoldAux objId sparse.length 0 dense [])

/-- The context built from one fusion row: reciprocal-rank fusion of
the two ranks plus temporally weighted decay by age in hours. -/
def entryContext (temporal_weight now : ℚ) (e : FusionEntry) : Context :=
  let denseRrf : ℚ := 1 / (60 + (e.denseRank : ℚ))
  let sparseRrf : ℚ := 1 / (60 + (e.sparseRank : ℚ))
  let age : ℚ := now - e.item.timestamp
  let temporalScore : ℚ := 1 / (1 + age)
  { content := e.item.content,
    relevance_score :=
      (0.4 : ℚ) * denseRrf + (0.3 : ℚ) * sparseRrf + temporal_weight * temporalScore,
    temporal_weight := temporalScore,
    source_type := e.item.memory_type }

/-- fusion_rank: build the all_results dict, score every candidate,
sort by descending score and keep the top k. -/
def fusion_rank (objId : MemoryItem → String) (dense sparse : List MemoryResult)
    (temporal_weight : ℚ) (k : Nat) (now : ℚ) : List Context :=
  let contexts :=
    (fusionEntries objId dense sparse).map (fun p => entryContext temporal_weight now p.2)
  (sortDescBy (fun c => c.relevance_score) contexts).take k

/-- retrieve_relevant_context: dense vector search (the embedding
provider and the vector store are external and parameters here) and
sparse keyword search, both widened to 2k, fused and truncated to k. -/
def AdaptiveMemorySystem.retrieve_relevant_context (objId : MemoryItem → String)
    (embed : String → List ℚ) (vectorSearch : List ℚ → Nat → List MemoryResult)
    (now : ℚ) (m : AdaptiveMemorySystem) (query : String) (k : Nat)
    (temporal_weight : ℚ) : List Context :=
  let dense := vectorSearch (embed query) (k * 2)
  let sparse := sparse_search m.working query (k * 2)
  fusion_rank objId dense sparse temporal_weight k now

/-! ## Transactional tool executor
(src/superagent/tools/transactional_executor.py) -/

/-- A top-level entry of the working tree: a file with string content,
or a directory whose recursive content is abstracted to one blob (the
executor snapshots and restores directories wholesale). -/
inductive FSEntry
  | file (content : String)
  | dir (tree : String)
deriving DecidableEq

/-- The working tree as an ordered association of top-level names. -/
abbrev FileSystem := List (String × FSEntry)

/-- Split a character list on a separator character (the structural
core of str.split used on path names). -/
def splitOnChar (c : Char) : List Char → List (List Char)
  | [] => [[]]
  | x :: xs =>
    let r := splitOnChar c xs
    if x = c then [] :: r
    else
      match r with
      | [] => [[x]]
      | h :: t => (x :: h) :: t

/-- pathlib suffix: the final extension including its dot; names
without a dot and pure dotfiles have no suffix. -/
def pathSuffix (name : String) : String :=
  match splitOnChar (Char.ofNat 46) name.toList with
  | [] => ""
  | [_] => ""
  | [[], _] => ""
  | parts => String.mk ((Char.ofNat 46) :: parts.getLastD [])

/-- The file suffixes captured by create_filesystem_snapshot. -/
def fileSuffixOk (name : String) : Bool :=
  [".py", ".txt", ".json", ".yaml"].contains (pathSuffix name)

/-- The directory names excluded from snapshots. -/
def dirExcluded (name : String) : Bool :=
  [".git", "__pycache__", "node_modules", ".venv"].contains name

/-- create_filesystem_snapshot: copy top-level files with the listed
suffixes and non-excluded top-level directories; directory copies pass
through an ignore filter (shutil.ignore_patterns for caches), modelled
by dirFilter on the abstracted blob. Everything else is left out of
the snapshot. -/
def createSnapshot (dirFilter : String → String) (fs : FileSystem) : FileSystem :=
  fs.filterMap (fun p =>
    match p.2 with
    | .file c => if fileSuffixOk p.1 then some (p.1, .file c) else none
    | .dir t => if dirExcluded p.1 then none else some (p.1, .dir (dirFilter t)))

/-- rollback_to_checkpoint: copy every snapshot entry back over the
working tree (files via copy2, directories replaced wholesale);
entries absent from the snapshot are left untouched and files created
since the snapshot are not removed. -/
def restoreSnapshot (snap : FileSystem) (fs : FileSystem) : FileSystem :=
  snap.foldl (fun acc p => dictSet acc p.1 p.2) fs

/-- The checkpoint content: a filesystem snapshot when snapshots are
enabled (the captured environment variables cannot be restored and are
not modelled). -/
def mkSnap (enableSnapshots : Bool) (dirFilter : String → String) (fs : FileSystem) :
    Option FileSystem :=
  if enableSnapshots then some (createSnapshot dirFilter fs) else none

/-- The outcome record of one tool invocation. -/
structure PyToolResult where
  success : Bool
  output : String
  error : String
deriving DecidableEq

/-- A registered tool: parameter validation (raising on bad input) and
the execution effect on the working tree. Timeouts surface through the
run result like any other failure; real time is not modelled. -/
structure SATool where
  validate : String → Except String String
  run : String → FileSystem → PyToolResult × FileSystem

/-- A requested tool call (parameters abstracted to one blob). -/
structure SAToolCall where
  id : String
  toolName : String
  parameters : String
deriving DecidableEq

/-- The per-call output collected into TransactionResult.results. -/
structure SAToolOutput where
  call_id : String
  toolName : String
  success : Bool
  output : String
  error : String
deriving DecidableEq

/-- execute_tool_with_monitoring: re-resolve the tool, re-validate the
parameters, run it, and convert every failure mode (missing tool,
validation error, execution error) into an unsuccessful output instead
of raising. -/
def executeToolWithMonitoring (reg : List (String × SATool)) (tc : SAToolCall)
    (fs : FileSystem) : SAToolOutput × FileSystem :=
  match lookupA reg tc.toolName with
  | none =>
    ({ call_id := tc.id, toolName := tc.toolName, success := false,
       output := "", error := "Tool not found" }, fs)
  | some tool =>
    match tool.validate tc.parameters with
    | .error e =>
      ({ call_id := tc.id, toolName := tc.toolName, success := false,
         output := "", error := e }, fs)
    | .ok params =>
      ({ call_id := tc.id, toolName := tc.toolName,
         success := (tool.run params fs).1.success,
         output := (tool.run params fs).1.output,
         error := (tool.run params fs).1.error }, (tool.run params fs).2)

/-- The validation phase: every call must resolve to a registered tool
and validate its parameters, otherwise the transaction aborts before
the initial checkpoint exists. -/
def validatePhase (reg : List (String × SATool)) : List SAToolCall → Except String Unit
  | [] => .ok ()
  | tc :: rest =>
    match lookupA reg tc.toolName with
    | none => .error ("Tool not found: " ++ tc.toolName)
    | some t =>
      match t.validate tc.parameters with
      | .error e => .error ("Invalid parameters for " ++ tc.toolName ++ ": " ++ e)
      | .ok _ => validatePhase reg rest

/-- Result of the execution phase. -/
inductive ExecOutcome
  | completed (results : List SAToolOutput) (fs : FileSystem)
  | failed (toolName : String) (error : String) (fs : FileSystem)

/-- The execution phase: before every call but the first, push a fresh
checkpoint; run the call; on failure restore the second-to-last
checkpoint (the last one when only the initial checkpoint exists) and
raise — carrying the partially restored tree to the transaction-level
rollback. -/
def executionPhase (reg : List (String × SATool)) (dirFilter : String → String)
    (enableSnapshots : Bool) :
    List SAToolCall → Bool → List (Option FileSystem) → FileSystem →
      List SAToolOutput → ExecOutcome
  | [], _, _, fs, results => .completed results fs
  | tc :: rest, isFirst, cps, fs, results =>
    let cps' := if isFirst then cps else cps ++ [mkSnap enableSnapshots dirFilter fs]
    let out := (executeToolWithMonitoring reg tc fs).1
    let fs' := (executeToolWithMonitoring reg tc fs).2
    if out.success then
      executionPhase reg dirFilter enableSnapshots rest false cps' fs' (results ++ [out])
    else
      let target := if 1 < cps'.length then cps'.get? (cps'.length - 2) else cps'.get? 0
      let fsRolled :=
        match target with
        | some (some snap) => restoreSnapshot snap fs'
        | _ => fs'
      .failed tc.toolName out.error fsRolled

/-- The result record of execute_tool_sequence, together with the
transaction flags inspected by the claims. -/
structure SATransactionResult where
  success : Bool
  results : List SAToolOutput
  error : Option String
  rolled_back : Bool
  committed : Bool
deriving DecidableEq

/-- execute_tool_sequence: validate, checkpoint, execute; commit on
success; on any failure mark the transaction rolled back and restore
the initial checkpoint over whatever tree the failure left behind. -/
def execute_tool_sequence (reg : List (String × SATool))
    (dirFilter : String → String) (enableSnapshots : Bool)
    (tools : List SAToolCall) (fs : FileSystem) :
    SATransactionResult × FileSystem :=
  match validatePhase reg tools with
  | .error e =>
    ({ success := false, results := [], error := some e,
       rolled_back := true, committed := false }, fs)
  | .ok _ =>
    let cp0 := mkSnap enableSnapshots dirFilter fs
    match executionPhase reg dirFilter enableSnapshots tools true [cp0] fs [] with
    | .completed results fs' =>
      ({ success := true, results := results, error := none,
         rolled_back := false, committed := true }, fs')
    | .failed tname err fs' =>
      let fsFinal :=
        match cp0 with
        | some snap => restoreSnapshot snap fs'
        | none => fs'
      ({ success := false, results := [],
         error := some ("Tool " ++ tname ++ " failed: " ++ err),
         rolled_back := true, committed := false }, fsFinal)

/-! ## Concrete fixtures used by witnesses and counterexamples -/

/-- A tool that overwrites one file and succeeds. -/
def toolSetFile (name content : String) : SATool :=
  { validate := fun p => .ok p,
    run := fun _ fs =>
      ({ success := true, output := "", error := "" }, dictSet fs name (.file content)) }

/-- A tool that always fails without touching the tree. -/
def toolAlwaysFail : SATool :=
  { validate := fun p => .ok p,
    run := fun _ fs => ({ success := false, output := "", error := "boom" }, fs) }

/-- Demo registry: a writer for a non-snapshotted file, a writer for a
snapshotted one, and a failing tool. -/
def regDemo : List (String × SATool) :=
  [("write_notes", toolSetFile "notes.md" "v2"),
   ("write_a", toolSetFile "a.txt" "two"),
   ("boom", toolAlwaysFail)]

/-- A working tree holding one markdown file (suffix not snapshotted). -/
def fsNotes : FileSystem := [("notes.md", .file "v1")]

/-- A working tree holding one text file (suffix snapshotted). -/
def fsA : FileSystem := [("a.txt", .file "one")]

/-- Overwrite notes.md, then fail. -/
def callsNotes : List SAToolCall :=
  [{ id := "c1", toolName := "write_notes", parameters := "p" },
   { id := "c2", toolName := "boom", parameters := "p" }]

/-- Overwrite a.txt, then fail. -/
def callsA : List SAToolCall :=
  [{ id := "c1", toolName := "write_a", parameters := "p" },
   { id := "c2", toolName := "boom", parameters := "p" }]

/-- Two successful writes. -/
def callsOk : List SAToolCall :=
  [{ id := "c1", toolName := "write_a", parameters := "p" },
   { id := "c2", toolName := "write_a", parameters := "p" }]

/-- A fixed summary-content function for concrete memory scenarios. -/
def scDemo : List MemoryItem → String := fun _ => "summary"

/-- A fixed embedding function for concrete memory scenarios. -/
def embedDemo : String → List ℚ := fun _ => [1]

/-- A memory item carrying its own embedding. -/
def itemDemo : MemoryItem :=
  { id := none, content := "hello", memory_type := .workingTier,
    timestamp := 0, embedding := some [1] }

/-- A memory system with episodic capacity zero (constructible: the
constructor does not validate capacities). -/
def memZeroCap : AdaptiveMemorySystem :=
  { working_capacity := 10, episodic_capacity := 0, compression_threshold := 1,
    working := [], episodic := [], pending := [] }

/-- A memory system one item short of its compression threshold. -/
def memDemo : AdaptiveMemorySystem :=
  { working_capacity := 10, episodic_capacity := 1000, compression_threshold := 2,
    working := [itemDemo], episodic := [], pending := [itemDemo] }

/-- A request resolved to provider a through the model map. -/
def reqDemo : LLMRequest :=
  { model := "m-a", messages := [{ role := "user", content := "hi" }],
    temperature := 1, max_tokens := none, top_p := 1, frequency_penalty := 0,
    presence_penalty := 0, stop := none, stream := false }

/-- A chat provider whose adapter always raises the given error. -/
def provFail (e : String) : Provider :=
  { supportsChat := true, behavior := fun _ => .error e, metrics := .init }

/-- A chat provider whose adapter succeeds, echoing the request model. -/
def provEcho : Provider :=
  { supportsChat := true,
    behavior := fun r =>
      .ok { id := "r1", model := r.model, content := "OK", providerName := "b" },
    metrics := .init }

/-- Two providers that both fail: a (primary, error E1) and b
(fallback, error E2). -/
def uTwoFail : UnifiedLLMProvider :=
  { providers := [("a", provFail "E1"), ("b", provFail "E2")],
    configs := [{ name := "a", models := ["m-a"], prio := 100, enabled := true },
                { name := "b", models := ["m-b"], prio := 90, enabled := true }],
    model_to_provider := [("m-a", "a"), ("m-b", "b")] }

/-- Three providers: a (primary) fails, c (priority 95) fails, b
(priority 90) succeeds; the chain must try c before b. -/
def uChain : UnifiedLLMProvider :=
  { providers := [("a", provFail "E1"), ("b", provEcho), ("c", provFail "E3")],
    configs := [{ name := "a", models := ["m-a"], prio := 100, enabled := true },
                { name := "b", models := ["m-b"], prio := 90, enabled := true },
                { name := "c", models := ["m-c"], prio := 95, enabled := true }],
    model_to_provider := [("m-a", "a"), ("m-b", "b"), ("m-c", "c")] }

/-- The model each provider of the concrete chain serves first. -/
def modelOfDemo : String → String := fun n => String.append "m-" n

/-- Object-identity fallback for the fusion dict key (unused when every
item carries an id). -/
def objIdDemo : MemoryItem → String := fun _ => "anon"

/-- Retrieval fixture items with distinct ids. -/
def itemA : MemoryItem :=
  { id := some "A", content := "alpha", memory_type := .long_term,
    timestamp := 0, embedding := none }

def itemB : MemoryItem :=
  { id := some "B", content := "beta", memory_type := .long_term,
    timestamp := 1, embedding := none }

def itemC : MemoryItem :=
  { id := some "C", content := "gamma", memory_type := .long_term,
    timestamp := 0, embedding := none }

/-- A dense result list: A then B. -/
def denseDemo : List MemoryResult :=
  [{ item := itemA, relevance_score := 9/10 },
   { item := itemB, relevance_score := 1/2 }]

/-- A sparse result list: B then C. -/
def sparseDemo : List MemoryResult :=
  [{ item := itemB, relevance_score := 1 },
   { item := itemC, relevance_score := 1/3 }]

/-! # Theorems -/

/-! ## C8: empty message lists at request construction -/

/-- Claim C8 counterexample: constructing an LLMRequest with an empty
messages list does not fail — the pydantic model places no constraint
on the messages list, so construction succeeds and yields a request
whose messages list is empty, contradicting both halves of the claim. -/
theorem C8_empty_messages_accepted_counterexample :
    ∃ r : LLMRequest,
      mk_llm_request "gpt-4" [] (7/10) none 1 0 0 .absent false = .ok r ∧
      r.messages = [] := by
  refine ⟨{ model := "gpt-4", messages := [], temperature := 7/10, max_tokens := none,
            top_p := 1, frequency_penalty := 0, presence_penalty := 0,
            stop := none, stream := false }, ?_, rfl⟩
  norm_num [mk_llm_request, badMaxTokens, validate_stop]

/-- Claim C8 (amended): an empty messages list is accepted at request
construction; whenever every other field satisfies its declared bound,
construction with messages = [] succeeds and the resulting request has
an empty messages list. -/
theorem C8_empty_messages_accepted (model : String) (temperature : ℚ)
    (mt : Option Int) (top_p fp pp : ℚ) (stop : StopInput) (stream : Bool)
    (ht : 0 ≤ temperature ∧ temperature ≤ 2)
    (hmt : ∀ n, mt = some n → 0 < n)
    (htp : 0 ≤ top_p ∧ top_p ≤ 1)
    (hfp : -2 ≤ fp ∧ fp ≤ 2)
    (hpp : -2 ≤ pp ∧ pp ≤ 2) :
    ∃ r : LLMRequest,
      mk_llm_request model [] temperature mt top_p fp pp stop stream = .ok r ∧
      r.messages = [] := by
  refine ⟨{ model := model, messages := [], temperature := temperature, max_tokens := mt,
            top_p := top_p, frequency_penalty := fp, presence_penalty := pp,
            stop := validate_stop stop, stream := stream }, ?_, rfl⟩
  have hmt' : badMaxTokens mt = false := by
    cases mt with
    | none => rfl
    | some n =>
      have := hmt n rfl
      simp only [badMaxTokens, decide_eq_false_iff_not]
      omega
  simp [mk_llm_request, ht.1, ht.2, htp.1, htp.2, hfp.1, hfp.2, hpp.1, hpp.2, hmt']

/-- Claim C8 witness: the amended statement at a concrete instance. -/
theorem C8_empty_messages_accepted_witness :
    ∃ r : LLMRequest,
      mk_llm_request "gpt-4" [] (7/10) (some 256) 1 0 0 .absent false = .ok r ∧
      r.messages = [] :=
  C8_empty_messages_accepted "gpt-4" (7/10) (some 256) 1 0 0 .absent false
    (by norm_num) (by intro n hn; cases hn; norm_num) (by norm_num)
    (by norm_num) (by norm_num)

/-! ## C9: token counting fallback -/

/-- Claim C9 counterexample: with a failing tokenizer, count_tokens on
a 5-character text returns 5 // 4 = 1, not ceil(5/4) = 2: the fallback
rounds down, not up. -/
theorem C9_fallback_rounds_down_counterexample :
    count_tokens (fun _ _ => .error "tokenizer down") "gpt-4" "abcde" ≠
      ("abcde".length + 3) / 4 := by
  decide

/-- Claim C9 (amended): when the underlying tokenizer raises,
count_tokens returns the floor division len(text) // 4 — rounding down,
not up, for lengths that are not multiples of 4. -/
theorem C9_fallback_is_floor_div
    (token_counter : String → String → Except String Nat)
    (model text e : String) (h : token_counter model text = .error e) :
    count_tokens token_counter model text = text.length / 4 := by
  unfold count_tokens
  rw [h]

/-- Claim C9 witness: the amended statement at a concrete instance. -/
theorem C9_fallback_is_floor_div_witness :
    count_tokens (fun _ _ => .error "tokenizer down") "gpt-4" "abcde" =
      "abcde".length / 4 :=
  C9_fallback_is_floor_div (fun _ _ => .error "tokenizer down") "gpt-4" "abcde"
    "tokenizer down" rfl

/-! ## Stable sort lemmas -/

theorem mem_insertDescBy {α κ : Type} [LinearOrder κ] (f : α → κ) (x : α)
    (l : List α) (a : α) : a ∈ insertDescBy f x l ↔ a = x ∨ a ∈ l := by
  induction l with
  | nil => simp [insertDescBy]
  | cons y ys ih =>
    by_cases h : f y ≤ f x
    · simp [insertDescBy, h]
    · simp only [insertDescBy, if_neg h, List.mem_cons, ih]
      tauto

theorem perm_insertDescBy {α κ : Type} [LinearOrder κ] (f : α → κ) (x : α)
    (l : List α) : List.Perm (insertDescBy f x l) (x :: l) := by
  induction l with
  | nil => simp [insertDescBy]
  | cons y ys ih =>
    by_cases h : f y ≤ f x
    · simp [insertDescBy, h]
    · simp only [insertDescBy, if_neg h]
      exact (ih.cons y).trans (List.Perm.swap x y ys)

theorem perm_sortDescBy {α κ : Type} [LinearOrder κ] (f : α → κ) (l : List α) :
    List.Perm (sortDescBy f l) l := by
  induction l with
  | nil => simp [sortDescBy]
  | cons x xs ih =>
    exact (perm_insertDescBy f x (sortDescBy f xs)).trans (ih.cons x)

theorem pairwise_insertDescBy {α κ : Type} [LinearOrder κ] (f : α → κ) (x : α)
    (l : List α) (h : l.Pairwise (fun a b => f b ≤ f a)) :
    (insertDescBy f x l).Pairwise (fun a b => f b ≤ f a) := by
  induction l with
  | nil => simp [insertDescBy]
  | cons y ys ih =>
    rcases List.pairwise_cons.mp h with ⟨hy, hys⟩
    by_cases hxy : f y ≤ f x
    · simp only [insertDescBy, if_pos hxy]
      refine List.pairwise_cons.mpr ⟨?_, h⟩
      intro b hb
      rcases List.mem_cons.mp hb with rfl | hb
      · exact hxy
      · exact le_trans (hy b hb) hxy
    · simp only [insertDescBy, if_neg hxy]
      refine List.pairwise_cons.mpr ⟨?_, ih hys⟩
      intro b hb
      rcases (mem_insertDescBy f x ys b).mp hb with rfl | hb
      · exact le_of_not_le hxy
      · exact hy b hb

theorem pairwise_sortDescBy {α κ : Type} [LinearOrder κ] (f : α → κ) (l : List α) :
    (sortDescBy f l).Pairwise (fun a b => f b ≤ f a) := by
  induction l with
  | nil => simp [sortDescBy]
  | cons x xs ih => exact pairwise_insertDescBy f x (sortDescBy f xs) ih



/-! ## C5: event bus fan-out -/

theorem fanoutLogs_map_fst {σ : Type} (ev : Event) (subs : List (Handler σ)) :
    ∀ st : σ, (fanoutLogs ev subs st).map Prod.fst = subs.map Handler.hid := by
  induction subs with
  | nil => intro st; rfl
  | cons h hs ih => intro st; simp [fanoutLogs, ih]

theorem publishFold_spec {σ : Type} (ev : Event) (subs : List (Handler σ)) :
    ∀ (st : σ) (logs : List (Nat × Option String)),
      subs.foldl (fanoutStep ev) (st, logs) =
      (subs.foldl (fun s h => (h.run ev s).1) st,
       logs ++ fanoutLogs ev subs st) := by
  induction subs with
  | nil => intro st logs; simp [fanoutLogs]
  | cons h hs ih =>
    intro st logs
    have hstep : fanoutStep ev (st, logs) h =
        ((h.run ev st).1, logs ++ [(h.hid, (h.run ev st).2)]) := rfl
    rw [List.foldl_cons, hstep, ih]
    simp [fanoutLogs]

/-- Claim C5: for every publish of an event with N registered
subscribers for its type, all N handlers are notified exactly once and
in order (the log trail lists every subscriber identity), a raising
handler does not prevent any later handler from running (the final
ambient state is the left fold of every handler effect, raising or
not), and publish itself returns normally with the bounded history
update — handler errors are only logged, never propagated. -/
theorem C5_event_bus_fanout {σ : Type} (bus : EventBus σ) (ev : Event) (st : σ) :
    ((publish bus ev st).2.2).map Prod.fst = (subscribersFor bus ev).map Handler.hid ∧
    (publish bus ev st).2.1 =
      (subscribersFor bus ev).foldl (fun s h => (h.run ev s).1) st ∧
    (publish bus ev st).1.event_history =
      (if bus.max_history < (bus.event_history ++ [ev]).length then
        (bus.event_history ++ [ev]).drop 1
      else bus.event_history ++ [ev]) := by
  unfold publish
  simp only [publishFold_spec ev (subscribersFor bus ev) st []]
  refine ⟨?_, ?_, ?_⟩
  · simp [fanoutLogs_map_fst]
  · simp
  · simp

/-! ## C2: committed transactions return one successful output per call -/

theorem executeToolWithMonitoring_call_id (reg : List (String × SATool))
    (tc : SAToolCall) (fs : FileSystem) :
    (executeToolWithMonitoring reg tc fs).1.call_id = tc.id := by
  unfold executeToolWithMonitoring
  split
  · rfl
  · split
    · rfl
    · rfl

theorem executionPhase_completed_spec (reg : List (String × SATool))
    (dirFilter : String → String) (enableSnapshots : Bool) :
    ∀ (tools : List SAToolCall) (isFirst : Bool) (cps : List (Option FileSystem))
      (fs : FileSystem) (acc : List SAToolOutput) (results : List SAToolOutput)
      (fsOut : FileSystem),
      executionPhase reg dirFilter enableSnapshots tools isFirst cps fs acc =
        .completed results fsOut →
      ∃ outs, results = acc ++ outs ∧
        List.Forall₂ (fun (o : SAToolOutput) (tc : SAToolCall) =>
          o.call_id = tc.id ∧ o.success = true) outs tools := by
  intro tools
  induction tools with
  | nil =>
    intro isFirst cps fs acc results fsOut h
    unfold executionPhase at h
    injection h with h1 _
    exact ⟨[], by simp [h1.symm], List.Forall₂.nil⟩
  | cons tc rest ih =>
    intro isFirst cps fs acc results fsOut h
    unfold executionPhase at h
    dsimp only at h
    by_cases hsucc : (executeToolWithMonitoring reg tc fs).1.success = true
    · rw [if_pos hsucc] at h
      obtain ⟨outs, houts, hfa⟩ := ih false _ _ _ results fsOut h
      refine ⟨(executeToolWithMonitoring reg tc fs).1 :: outs, by simp [houts], ?_⟩
      exact List.Forall₂.cons ⟨executeToolWithMonitoring_call_id reg tc fs, hsucc⟩ hfa
    · rw [if_neg hsucc] at h
      exact absurd h (by simp)

/-- Claim C2: every committed (success = true) transaction result was
in fact committed and carries exactly one successful ToolOutput per
input ToolCall, in order, with matching call ids. -/
theorem C2_committed_results (reg : List (String × SATool)) (dirFilter : String → String)
    (enableSnapshots : Bool) (tools : List SAToolCall) (fs : FileSystem)
    (h : (execute_tool_sequence reg dirFilter enableSnapshots tools fs).1.success = true) :
    (execute_tool_sequence reg dirFilter enableSnapshots tools fs).1.committed = true ∧
    (execute_tool_sequence reg dirFilter enableSnapshots tools fs).1.results.length
      = tools.length ∧
    List.Forall₂ (fun (o : SAToolOutput) (tc : SAToolCall) =>
        o.call_id = tc.id ∧ o.success = true)
      (execute_tool_sequence reg dirFilter enableSnapshots tools fs).1.results tools := by
  unfold execute_tool_sequence at *
  cases hv : validatePhase reg tools with
  | error e => rw [hv] at h; simp at h
  | ok u =>
    rw [hv] at h
    dsimp only at h ⊢
    cases hx : executionPhase reg dirFilter enableSnapshots tools true
        [mkSnap enableSnapshots dirFilter fs] fs [] with
    | completed results fsOut =>
      rw [hx] at h
      dsimp only at h ⊢
      obtain ⟨outs, houts, hfa⟩ :=
        executionPhase_completed_spec reg dirFilter enableSnapshots tools true
          [mkSnap enableSnapshots dirFilter fs] fs [] results fsOut hx
      simp only [List.nil_append] at houts
      subst houts
      exact ⟨rfl, hfa.length_eq, hfa⟩
    | failed tname err fsOut => rw [hx] at h; simp at h

/-- Claim C2 witness: a concrete two-call transaction that commits. -/
theorem C2_committed_results_witness :
    (execute_tool_sequence regDemo id true callsOk fsA).1.committed = true ∧
    (execute_tool_sequence regDemo id true callsOk fsA).1.results.length
      = callsOk.length ∧
    List.Forall₂ (fun (o : SAToolOutput) (tc : SAToolCall) =>
        o.call_id = tc.id ∧ o.success = true)
      (execute_tool_sequence regDemo id true callsOk fsA).1.results callsOk :=
  C2_committed_results regDemo id true callsOk fsA (by decide)


/-! ## C1: rollback and the limits of snapshot restoration -/

theorem lookupA_eq_of_mem_nodup {β : Type} (l : List (String × β))
    (hnd : (l.map Prod.fst).Nodup) (k : String) (v : β) (hm : (k, v) ∈ l) :
    lookupA l k = some v := by
  induction l with
  | nil => cases hm
  | cons a t ih =>
    rcases List.mem_cons.mp hm with rfl | hmt
    · simp [lookupA, List.find?_cons_of_pos]
    · have hk : k ∈ t.map Prod.fst := List.mem_map.mpr ⟨(k, v), hmt, rfl⟩
      have ha : a.1 ≠ k := by
        intro hak
        exact (List.nodup_cons.mp hnd).1 (hak ▸ hk)
      rw [lookupA, List.find?_cons_of_neg _ (by simpa using ha)]
      exact ih (List.nodup_cons.mp hnd).2 hmt

theorem lookupA_mapSet {β : Type} (l : List (String × β)) (k : String) (v : β) :
    lookupA (l.map (fun p => if p.1 == k then (k, v) else p)) k =
      (lookupA l k).map (fun _ => v) := by
  induction l with
  | nil => rfl
  | cons a t ih =>
    by_cases ha : a.1 = k
    · simp [lookupA, List.find?_cons_of_pos, ha]
    · have hb : (a.1 == k) = false := by simpa using ha
      simp only [List.map_cons, hb, if_false]
      rw [lookupA, List.find?_cons_of_neg _ (by simpa using ha),
        lookupA, List.find?_cons_of_neg _ (by simpa using ha)]
      exact ih

theorem lookupA_append_single {β : Type} (l : List (String × β)) (k : String) (v : β)
    (h : l.find? (fun p => p.1 == k) = none) :
    lookupA (l ++ [(k, v)]) k = some v := by
  rw [lookupA, List.find?_append, h]
  simp

theorem lookupA_dictSet_self {β : Type} (l : List (String × β)) (k : String) (v : β) :
    lookupA (dictSet l k v) k = some v := by
  unfold dictSet
  split
  · rename_i hfound
    rw [lookupA_mapSet]
    obtain ⟨p, hp⟩ := Option.isSome_iff_exists.mp hfound
    simp [lookupA, hp]
  · rename_i hfound
    exact lookupA_append_single l k v (Option.not_isSome_iff_eq_none.mp hfound)

theorem lookupA_mapSet_ne {β : Type} (l : List (String × β)) (k : String) (v : β)
    (k' : String) (h : k' ≠ k) :
    lookupA (l.map (fun p => if p.1 == k then (k, v) else p)) k' = lookupA l k' := by
  induction l with
  | nil => rfl
  | cons a t ih =>
    by_cases ha : a.1 = k
    · have hne : (k : String) ≠ k' := fun hc => h hc.symm
      rw [List.map_cons, if_pos (by simpa using ha : (a.1 == k) = true),
        lookupA, List.find?_cons_of_neg _ (by simpa using hne),
        lookupA, List.find?_cons_of_neg _ (by simp; exact fun hc => hne (ha ▸ hc))]
      exact ih
    · rw [List.map_cons, if_neg (by simpa using ha : ¬ (a.1 == k) = true)]
      by_cases hk' : a.1 = k'
      · rw [lookupA, List.find?_cons_of_pos _ (by simpa using hk'),
          lookupA, List.find?_cons_of_pos _ (by simpa using hk')]
      · rw [lookupA, List.find?_cons_of_neg _ (by simpa using hk'),
          lookupA, List.find?_cons_of_neg _ (by simpa using hk')]
        exact ih

theorem lookupA_dictSet_ne {β : Type} (l : List (String × β)) (k : String) (v : β)
    (k' : String) (h : k' ≠ k) : lookupA (dictSet l k v) k' = lookupA l k' := by
  unfold dictSet
  split
  · exact lookupA_mapSet_ne l k v k' h
  · rw [lookupA, List.find?_append]
    have h1 : ([(k, v)].find? (fun p => p.1 == k') = none) := by
      simp
      exact fun hc => h hc.symm
    cases hf : l.find? (fun p => p.1 == k') with
    | none => simp [hf, h1, lookupA]
    | some p => simp [hf, lookupA]

theorem lookupA_restore_of_not_mem (snap : FileSystem) (k : String)
    (h : k ∉ snap.map Prod.fst) :
    ∀ fs : FileSystem, lookupA (restoreSnapshot snap fs) k = lookupA fs k := by
  induction snap with
  | nil => intro fs; rfl
  | cons a t ih =>
    intro fs
    have hk : k ≠ a.1 := fun hc => h (by simp [hc])
    have ht : k ∉ t.map Prod.fst := fun hc => h (by simp [hc])
    show lookupA (restoreSnapshot t (dictSet fs a.1 a.2)) k = lookupA fs k
    rw [ih ht, lookupA_dictSet_ne _ _ _ _ hk]

theorem lookupA_restore_of_mem (snap : FileSystem) (k : String) (v : FSEntry)
    (hnd : (snap.map Prod.fst).Nodup) (hm : (k, v) ∈ snap) :
    ∀ fs : FileSystem, lookupA (restoreSnapshot snap fs) k = some v := by
  induction snap with
  | nil => cases hm
  | cons a t ih =>
    intro fs
    rcases List.mem_cons.mp hm with rfl | hmt
    · have ht : k ∉ t.map Prod.fst := (List.nodup_cons.mp hnd).1
      show lookupA (restoreSnapshot t (dictSet fs k v)) k = some v
      rw [lookupA_restore_of_not_mem t k ht, lookupA_dictSet_self]
    · show lookupA (restoreSnapshot t (dictSet fs a.1 a.2)) k = some v
      exact ih (List.nodup_cons.mp hnd).2 hmt (dictSet fs a.1 a.2)

theorem mem_createSnapshot_file (dirFilter : String → String) (fs : FileSystem)
    (k : String) (c : String) (h1 : (k, FSEntry.file c) ∈ fs)
    (h2 : fileSuffixOk k = true) :
    (k, FSEntry.file c) ∈ createSnapshot dirFilter fs := by
  unfold createSnapshot
  exact List.mem_filterMap.mpr ⟨(k, .file c), h1, by simp [h2]⟩

theorem createSnapshot_keys_sublist (dirFilter : String → String) (fs : FileSystem) :
    List.Sublist ((createSnapshot dirFilter fs).map Prod.fst) (fs.map Prod.fst) := by
  induction fs with
  | nil => simp [createSnapshot]
  | cons p t ih =>
    unfold createSnapshot at ih ⊢
    cases hp : p.2 with
    | file c =>
      by_cases hk : fileSuffixOk p.1
      · simpa [List.filterMap_cons, hp, hk] using ih.cons₂ p.1
      · simpa [List.filterMap_cons, hp, hk] using ih.cons p.1
    | dir d =>
      by_cases hk : dirExcluded p.1
      · simpa [List.filterMap_cons, hp, hk] using ih.cons p.1
      · simpa [List.filterMap_cons, hp, hk] using ih.cons₂ p.1

/-- Claim C1 (amended): when a tool call of the sequence fails (with
snapshots enabled), the returned result has success = false and the
transaction is marked rolled back, and every top-level file whose
suffix is one of the snapshotted ones (.py/.txt/.json/.yaml) is
restored to its pre-transaction content. The original claim that the
whole tree is byte-identical to the initial checkpoint fails: files
with other suffixes and files created during the transaction are not
restored (see the counterexample). -/
theorem C1_rollback_restores_snapshotted_files (reg : List (String × SATool))
    (dirFilter : String → String) (tools : List SAToolCall) (fs : FileSystem)
    (hnd : (fs.map Prod.fst).Nodup)
    (hfail : (execute_tool_sequence reg dirFilter true tools fs).1.success = false) :
    (execute_tool_sequence reg dirFilter true tools fs).1.rolled_back = true ∧
    ∀ (n : String) (c : String), (n, FSEntry.file c) ∈ fs → fileSuffixOk n = true →
      lookupA (execute_tool_sequence reg dirFilter true tools fs).2 n =
        some (FSEntry.file c) := by
  unfold execute_tool_sequence at *
  cases hv : validatePhase reg tools with
  | error e =>
    refine ⟨rfl, ?_⟩
    intro n c hm _
    exact lookupA_eq_of_mem_nodup fs hnd n (FSEntry.file c) hm
  | ok u =>
    rw [hv] at hfail
    dsimp only at hfail ⊢
    cases hx : executionPhase reg dirFilter true tools true
        [mkSnap true dirFilter fs] fs [] with
    | completed results fsOut => rw [hx] at hfail; simp at hfail
    | failed tname err fsOut =>
      dsimp only [mkSnap, if_pos]
      refine ⟨rfl, ?_⟩
      intro n c hm hsfx
      have hsnap_nd : ((createSnapshot dirFilter fs).map Prod.fst).Nodup :=
        hnd.sublist (createSnapshot_keys_sublist dirFilter fs)
      exact lookupA_restore_of_mem (createSnapshot dirFilter fs) n (FSEntry.file c)
        hsnap_nd (mem_createSnapshot_file dirFilter fs n c hm hsfx) fsOut

/-- Claim C1 counterexample: a transaction that overwrites notes.md (a
suffix the snapshot does not capture) and then fails is rolled back,
yet the tree is not identical to the pre-transaction state: notes.md
keeps the overwritten content, contradicting the claimed byte-identical
restoration of files overwritten by earlier successful calls. -/
theorem C1_rollback_not_identical_counterexample :
    (execute_tool_sequence regDemo id true callsNotes fsNotes).1.success = false ∧
    (execute_tool_sequence regDemo id true callsNotes fsNotes).1.rolled_back = true ∧
    lookupA fsNotes "notes.md" = some (.file "v1") ∧
    lookupA (execute_tool_sequence regDemo id true callsNotes fsNotes).2 "notes.md" =
      some (.file "v2") := by
  refine ⟨rfl, rfl, rfl, ?_⟩
  decide

/-- Claim C1 witness: the amended statement on the specification's own
rollback scenario (a.txt overwritten then restored to its original
content). -/
theorem C1_rollback_restores_snapshotted_files_witness :
    lookupA (execute_tool_sequence regDemo id true callsA fsA).2 "a.txt" =
      some (FSEntry.file "one") :=
  (C1_rollback_restores_snapshotted_files regDemo id callsA fsA
    (by decide) (by decide)).2 "a.txt" "one" (by decide) (by decide)


/-! ## C6: compression invariants of the adaptive memory -/

theorem length_dequeAppend_le {α : Type} (cap : Nat) (l : List α) (x : α) :
    (dequeAppend cap l x).length ≤ cap := by
  unfold dequeAppend
  dsimp only
  split
  · rename_i h
    simp only [List.length_drop]
    omega
  · rename_i h
    simp only [List.length_append, List.length_cons, List.length_nil] at h ⊢
    omega

theorem compress_and_archive_spec (sc : List MemoryItem → String)
    (embed : String → List ℚ) (now : ℚ) (m : AdaptiveMemorySystem)
    (hne : m.pending ≠ []) (hcap : 1 ≤ m.episodic_capacity) :
    (compress_and_archive sc embed now m).pending = [] ∧
    ((compress_and_archive sc embed now m).episodic.getLast?).map
        (fun it => it.memory_type) = some MemoryType.long_term ∧
    (compress_and_archive sc embed now m).episodic.length =
      min (m.episodic.length + 1) m.episodic_capacity ∧
    (compress_and_archive sc embed now m).working = m.working := by
  unfold compress_and_archive
  rw [if_neg (by simp [List.isEmpty_iff, hne])]
  dsimp only
  refine ⟨rfl, ?_, ?_, rfl⟩
  · split
    · rename_i hgt
      rw [pyTailSlice, if_neg (by omega)]
      simp only [List.length_append, List.length_cons, List.length_nil] at hgt
      rw [List.drop_append_of_le_length
        (by simp only [List.length_append, List.length_cons, List.length_nil]; omega),
        List.getLast?_concat]
      rfl
    · rw [List.getLast?_concat]
      rfl
  · split
    · rename_i hgt
      rw [pyTailSlice, if_neg (by omega)]
      simp only [List.length_drop, List.length_append, List.length_cons,
        List.length_nil] at hgt ⊢
      omega
    · rename_i hgt
      simp only [List.length_append, List.length_cons, List.length_nil] at hgt ⊢
      omega

/-- Claim C6 (amended): when an add raises the pending buffer to the
compression threshold and the episodic capacity is at least 1,
compression runs and afterwards the pending buffer is empty, the last
episodic entry is the freshly appended LONG_TERM summary, the episodic
tier holds min(previous+1, capacity) ≤ capacity items and the working
tier holds at most working_capacity items. The original claim fails at
episodic_capacity = 0, where the eviction slice l[-0:] keeps the whole
list (see the counterexample). -/
theorem C6_compression_invariants (sc : List MemoryItem → String)
    (embed : String → List ℚ) (now : ℚ) (idNew : String)
    (m : AdaptiveMemorySystem) (item : MemoryItem)
    (hcap : 1 ≤ m.episodic_capacity)
    (htrig : m.compression_threshold = m.pending.length + 1) :
    (AdaptiveMemorySystem.add sc embed now idNew m item).1.pending = [] ∧
    ((AdaptiveMemorySystem.add sc embed now idNew m item).1.episodic.getLast?).map
        (fun it => it.memory_type) = some MemoryType.long_term ∧
    (AdaptiveMemorySystem.add sc embed now idNew m item).1.episodic.length =
      min (m.episodic.length + 1) m.episodic_capacity ∧
    (AdaptiveMemorySystem.add sc embed now idNew m item).1.working.length ≤
      m.working_capacity := by
  unfold AdaptiveMemorySystem.add
  dsimp only
  rw [if_pos (by simp [htrig])]
  have hspec := compress_and_archive_spec sc embed now
    { m with
      working := dequeAppend m.working_capacity m.working
        { item with
          embedding :=
            if item.embedding.getD [] = [] then some (embed item.content)
            else item.embedding,
          id := some idNew },
      pending := m.pending ++
        [{ item with
          embedding :=
            if item.embedding.getD [] = [] then some (embed item.content)
            else item.embedding,
          id := some idNew }] }
    (by simp) hcap
  refine ⟨hspec.1, hspec.2.1, hspec.2.2.1, ?_⟩
  rw [hspec.2.2.2]
  exact length_dequeAppend_le _ _ _

/-- Claim C6 counterexample: with episodic_capacity = 0 a triggering
add runs compression, empties the pending buffer and appends the
summary, yet the episodic tier ends with 1 > 0 items — the Python
eviction slice episodic[-0:] keeps the entire list, so the capacity
bound of the claim is violated. -/
theorem C6_zero_capacity_counterexample :
    (AdaptiveMemorySystem.add scDemo embedDemo 0 "id0" memZeroCap itemDemo).1.pending
      = [] ∧
    (AdaptiveMemorySystem.add scDemo embedDemo 0 "id0" memZeroCap itemDemo).1.episodic.length
      = 1 ∧
    memZeroCap.episodic_capacity = 0 ∧
    ¬ ((AdaptiveMemorySystem.add scDemo embedDemo 0 "id0" memZeroCap itemDemo).1.episodic.length
      ≤ memZeroCap.episodic_capacity) := by
  decide

/-- Claim C6 witness: the amended statement on a concrete triggering
add with positive capacities. -/
theorem C6_compression_invariants_witness :
    (AdaptiveMemorySystem.add scDemo embedDemo 0 "id1" memDemo itemDemo).1.pending = [] ∧
    ((AdaptiveMemorySystem.add scDemo embedDemo 0 "id1" memDemo itemDemo).1.episodic.getLast?).map
        (fun it => it.memory_type) = some MemoryType.long_term ∧
    (AdaptiveMemorySystem.add scDemo embedDemo 0 "id1" memDemo itemDemo).1.episodic.length =
      min (memDemo.episodic.length + 1) memDemo.episodic_capacity ∧
    (AdaptiveMemorySystem.add scDemo embedDemo 0 "id1" memDemo itemDemo).1.working.length ≤
      memDemo.working_capacity :=
  C6_compression_invariants scDemo embedDemo 0 "id1" memDemo itemDemo
    (by decide) (by decide)


/-! ## Router state lemmas: metric updates change nothing but counters -/

theorem lookupA_mapValUpdate_self (l : List (String × Provider)) (b : Bool)
    (e : Option String) (n : String) :
    lookupA (l.map (fun p => if p.1 == n then (p.1, p.2.withMetrics b e) else p)) n =
      (lookupA l n).map (fun p => p.withMetrics b e) := by
  induction l with
  | nil => rfl
  | cons a t ih =>
    by_cases ha : a.1 = n
    · rw [List.map_cons, if_pos (by simpa using ha),
        lookupA, List.find?_cons_of_pos _ (by simpa using ha),
        lookupA, List.find?_cons_of_pos _ (by simpa using ha)]
      rfl
    · rw [List.map_cons, if_neg (by simpa using ha),
        lookupA, List.find?_cons_of_neg _ (by simpa using ha),
        lookupA, List.find?_cons_of_neg _ (by simpa using ha)]
      exact ih

theorem lookupA_mapValUpdate_ne (l : List (String × Provider)) (b : Bool)
    (e : Option String) (n m : String) (h : m ≠ n) :
    lookupA (l.map (fun p => if p.1 == n then (p.1, p.2.withMetrics b e) else p)) m =
      lookupA l m := by
  induction l with
  | nil => rfl
  | cons a t ih =>
    by_cases ha : a.1 = n
    · have hm : a.1 ≠ m := fun hc => h (hc ▸ ha)
      rw [List.map_cons, if_pos (by simpa using ha),
        lookupA, List.find?_cons_of_neg _ (by simpa using hm),
        lookupA, List.find?_cons_of_neg _ (by simpa using hm)]
      exact ih
    · rw [List.map_cons, if_neg (by simpa using ha)]
      by_cases hm : a.1 = m
      · rw [lookupA, List.find?_cons_of_pos _ (by simpa using hm),
          lookupA, List.find?_cons_of_pos _ (by simpa using hm)]
      · rw [lookupA, List.find?_cons_of_neg _ (by simpa using hm),
          lookupA, List.find?_cons_of_neg _ (by simpa using hm)]
        exact ih

theorem behaviorOf_update (u : UnifiedLLMProvider) (n : String) (b : Bool)
    (e : Option String) (m : String) :
    behaviorOf (updateProviderMetrics u n b e) m = behaviorOf u m := by
  unfold behaviorOf updateProviderMetrics
  by_cases h : m = n
  · subst h
    dsimp only
    rw [lookupA_mapValUpdate_self]
    cases lookupA u.providers m <;> rfl
  · dsimp only
    rw [lookupA_mapValUpdate_ne _ _ _ _ _ h]

theorem firstModel_update (u : UnifiedLLMProvider) (n : String) (b : Bool)
    (e : Option String) (m : String) :
    firstModel (updateProviderMetrics u n b e) m = firstModel u m := rfl

theorem findConfig_update (u : UnifiedLLMProvider) (n : String) (b : Bool)
    (e : Option String) (m : String) :
    findConfig (updateProviderMetrics u n b e) m = findConfig u m := rfl

theorem failedCount_update_ne (u : UnifiedLLMProvider) (n : String) (b : Bool)
    (e : Option String) (m : String) (h : m ≠ n) :
    failedCount (updateProviderMetrics u n b e) m = failedCount u m := by
  unfold failedCount updateProviderMetrics
  dsimp only
  rw [lookupA_mapValUpdate_ne _ _ _ _ _ h]

theorem successCount_update_ne (u : UnifiedLLMProvider) (n : String) (b : Bool)
    (e : Option String) (m : String) (h : m ≠ n) :
    successCount (updateProviderMetrics u n b e) m = successCount u m := by
  unfold successCount updateProviderMetrics
  dsimp only
  rw [lookupA_mapValUpdate_ne _ _ _ _ _ h]

theorem failedCount_update_fail_self (u : UnifiedLLMProvider) (n : String)
    (e : Option String) (p : Provider) (hp : lookupA u.providers n = some p) :
    failedCount (updateProviderMetrics u n false e) n = failedCount u n + 1 := by
  unfold failedCount updateProviderMetrics
  dsimp only
  rw [lookupA_mapValUpdate_self, hp]
  rfl

theorem successCount_update_fail_self (u : UnifiedLLMProvider) (n : String)
    (e : Option String) :
    successCount (updateProviderMetrics u n false e) n = successCount u n := by
  unfold successCount updateProviderMetrics
  dsimp only
  rw [lookupA_mapValUpdate_self]
  cases lookupA u.providers n <;> rfl

theorem successCount_update_ok_self (u : UnifiedLLMProvider) (n : String)
    (e : Option String) (p : Provider) (hp : lookupA u.providers n = some p) :
    successCount (updateProviderMetrics u n true e) n = successCount u n + 1 := by
  unfold successCount updateProviderMetrics
  dsimp only
  rw [lookupA_mapValUpdate_self, hp]
  rfl

theorem failedCount_update_ok_self (u : UnifiedLLMProvider) (n : String)
    (e : Option String) :
    failedCount (updateProviderMetrics u n true e) n = failedCount u n := by
  unfold failedCount updateProviderMetrics
  dsimp only
  rw [lookupA_mapValUpdate_self]
  cases lookupA u.providers n <;> rfl

/-! ## C4: the error raised after exhausting all providers -/

theorem fallbackLoop_raised_shape (primary errMsg : String) :
    ∀ (fbs : List String) (u : UnifiedLLMProvider) (req : LLMRequest)
      (tr : List Attempt) (err : ProviderErrorData),
      (fallbackLoop primary errMsg fbs u req tr).outcome = .raised err →
      err = { message := "All providers failed. Last error: " ++ errMsg,
              providerName := primary, original_error := some errMsg } := by
  intro fbs
  induction fbs with
  | nil =>
    intro u req tr err h
    unfold fallbackLoop at h
    dsimp only at h
    injection h with h1
    exact h1.symm
  | cons fb rest ih =>
    intro u req tr err h
    unfold fallbackLoop at h
    cases hl : lookupA u.providers fb with
    | none => rw [hl] at h; exact ih _ _ _ _ h
    | some p =>
      rw [hl] at h
      dsimp only at h
      cases hb : p.behavior (rewriteForFallback u fb req) with
      | ok resp => rw [hb] at h; exact absurd h (by simp)
      | error e2 => rw [hb] at h; exact ih _ _ _ _ h

/-- Claim C4 (amended): when generate exhausts the primary and every
fallback provider, the raised all-providers-failed error carries the
primary provider's underlying error (message, provider and
original_error all name the primary failure) — not the error of the
final provider attempted in the fallback chain. -/
theorem C4_all_providers_failed_error (u : UnifiedLLMProvider) (req : LLMRequest)
    (pn : Option String) (ef : Bool) (pname : String) (p : Provider) (e : String)
    (err : ProviderErrorData)
    (hres : resolveProvider u req pn = some pname)
    (hp : lookupA u.providers pname = some p)
    (he : p.behavior req = .error e)
    (hout : (generate u req pn ef).outcome = .raised err) :
    err = { message := "All providers failed. Last error: " ++ e,
            providerName := pname, original_error := some e } := by
  unfold generate at hout
  rw [hres] at hout
  dsimp only at hout
  rw [hp] at hout
  dsimp only at hout
  rw [he] at hout
  dsimp only at hout
  cases ef with
  | true => exact fallbackLoop_raised_shape pname e _ _ _ _ _ hout
  | false =>
    injection hout with h1
    exact h1.symm

/-- Claim C4 counterexample: two providers, the primary failing with
E1 and the only (and hence final) fallback failing with E2; the raised
error carries E1, the primary's error, not E2, the error of the final
provider attempted — contradicting the claim. -/
theorem C4_counterexample :
    (generate uTwoFail reqDemo none true).attempts =
      [{ providerName := "a", model := "m-a", success := false },
       { providerName := "b", model := "m-b", success := false }] ∧
    (provFail "E2").behavior { reqDemo with model := "m-b" } = .error "E2" ∧
    (generate uTwoFail reqDemo none true).outcome =
      .raised { message := "All providers failed. Last error: E1",
                providerName := "a", original_error := some "E1" } ∧
    ("E1" : String) ≠ "E2" := by
  refine ⟨by decide, rfl, by decide, by decide⟩

/-- Claim C4 witness: the amended statement on the concrete two-failure
universe. -/
theorem C4_all_providers_failed_error_witness :
    ({ message := "All providers failed. Last error: E1",
       providerName := "a", original_error := some "E1" } : ProviderErrorData) =
      { message := "All providers failed. Last error: " ++ "E1",
        providerName := "a", original_error := some "E1" } :=
  C4_all_providers_failed_error uTwoFail reqDemo none true "a" (provFail "E1") "E1"
    { message := "All providers failed. Last error: E1",
      providerName := "a", original_error := some "E1" }
    rfl rfl rfl rfl


/-! ## The fallback chain: order, attempts, request rewriting, metrics -/

theorem setModel_setModel (req : LLMRequest) (a b : String) :
    ({ ({ req with model := a } : LLMRequest) with model := b } : LLMRequest) =
      { req with model := b } := rfl

theorem rewriteForFallback_of_firstModel (u : UnifiedLLMProvider) (fb : String)
    (req : LLMRequest) (m : String) (h : firstModel u fb = some m) :
    rewriteForFallback u fb req = { req with model := m } := by
  unfold rewriteForFallback
  cases hc : findConfig u fb with
  | none =>
    unfold firstModel at h
    rw [hc] at h
    exact absurd h (by simp)
  | some c =>
    unfold firstModel at h
    rw [hc] at h
    have h2 : c.models.head? = some m := h
    cases hm : c.models with
    | nil => rw [hm] at h2; exact absurd h2 (by simp)
    | cons a t =>
      rw [hm] at h2
      have ham : a = m := by simpa using h2
      subst ham
      simp [hm]

theorem behaviorOf_some_elim (u : UnifiedLLMProvider) (n : String)
    (q : LLMRequest → Except String LLMResponse) (h : behaviorOf u n = some q) :
    ∃ p : Provider, lookupA u.providers n = some p ∧ p.behavior = q := by
  unfold behaviorOf at h
  cases hp : lookupA u.providers n with
  | none => rw [hp] at h; exact absurd h (by simp)
  | some p =>
    rw [hp] at h
    have h2 : some p.behavior = some q := h
    exact ⟨p, rfl, by injection h2⟩

theorem fallbackLoop_cons (primary errMsg fb : String) (rest : List String)
    (u : UnifiedLLMProvider) (req : LLMRequest) (tr : List Attempt) :
    fallbackLoop primary errMsg (fb :: rest) u req tr =
      (match lookupA u.providers fb with
       | none => fallbackLoop primary errMsg rest u req tr
       | some p =>
         match p.behavior (rewriteForFallback u fb req) with
         | .ok resp =>
           { outcome := .ok resp, state := updateProviderMetrics u fb true none,
             request := rewriteForFallback u fb req,
             attempts := tr ++
               [{ providerName := fb, model := (rewriteForFallback u fb req).model,
                  success := true }] }
         | .error e =>
           fallbackLoop primary errMsg rest (updateProviderMetrics u fb false (some e))
             (rewriteForFallback u fb req)
             (tr ++
               [{ providerName := fb, model := (rewriteForFallback u fb req).model,
                  success := false }])) := rfl

theorem fallbackLoop_first_success (pname errMsg : String) :
    ∀ (pre : List String) (s : String) (post : List String) (M : String → String)
      (u : UnifiedLLMProvider) (req : LLMRequest) (tr : List Attempt),
      (∀ n ∈ pre ++ [s], firstModel u n = some (M n)) →
      (∀ n ∈ pre, ∃ q, behaviorOf u n = some q ∧
        ∃ en, q { req with model := M n } = .error en) →
      (∃ q, behaviorOf u s = some q ∧
        ∃ resp, q { req with model := M s } = .ok resp) →
      (pre ++ [s]).Nodup →
      (∃ resp,
        (fallbackLoop pname errMsg (pre ++ s :: post) u req tr).outcome = .ok resp) ∧
      (fallbackLoop pname errMsg (pre ++ s :: post) u req tr).request =
        { req with model := M s } ∧
      (fallbackLoop pname errMsg (pre ++ s :: post) u req tr).attempts =
        tr ++ pre.map (fun n => { providerName := n, model := M n, success := false }) ++
          [{ providerName := s, model := M s, success := true }] ∧
      (∀ n ∈ pre,
        failedCount (fallbackLoop pname errMsg (pre ++ s :: post) u req tr).state n =
          failedCount u n + 1 ∧
        successCount (fallbackLoop pname errMsg (pre ++ s :: post) u req tr).state n =
          successCount u n) ∧
      failedCount (fallbackLoop pname errMsg (pre ++ s :: post) u req tr).state s =
        failedCount u s ∧
      successCount (fallbackLoop pname errMsg (pre ++ s :: post) u req tr).state s =
        successCount u s + 1 ∧
      (∀ n, n ∉ pre ++ [s] →
        failedCount (fallbackLoop pname errMsg (pre ++ s :: post) u req tr).state n =
          failedCount u n ∧
        successCount (fallbackLoop pname errMsg (pre ++ s :: post) u req tr).state n =
          successCount u n) := by
  intro pre
  induction pre with
  | nil =>
    intro s post M u req tr hM hpre hs hnd
    obtain ⟨q, hbq, resp, hok⟩ := hs
    obtain ⟨p, hp, hpq⟩ := behaviorOf_some_elim u s q hbq
    have hrw : rewriteForFallback u s req = { req with model := M s } :=
      rewriteForFallback_of_firstModel u s req (M s) (hM s (by simp))
    have hpb : p.behavior { req with model := M s } = .ok resp := by
      rw [hpq]; exact hok
    show _ ∧ _ ∧ _ ∧ _ ∧ _ ∧ _ ∧ _
    rw [List.nil_append]
    unfold fallbackLoop
    rw [hp]
    dsimp only
    rw [hrw, hpb]
    dsimp only
    refine ⟨⟨resp, rfl⟩, rfl, by simp, by simp, ?_, ?_, ?_⟩
    · exact failedCount_update_ok_self u s none
    · exact successCount_update_ok_self u s none p hp
    · intro n hn
      have hns : n ≠ s := by simpa using hn
      exact ⟨failedCount_update_ne u s true none n hns,
        successCount_update_ne u s true none n hns⟩
  | cons fb pre' ih =>
    intro s post M u req tr hM hpre hs hnd
    obtain ⟨q, hbq, en, herr⟩ := hpre fb (by simp)
    obtain ⟨p, hp, hpq⟩ := behaviorOf_some_elim u fb q hbq
    have hrw : rewriteForFallback u fb req = { req with model := M fb } :=
      rewriteForFallback_of_firstModel u fb req (M fb) (hM fb (by simp))
    have hpb : p.behavior { req with model := M fb } = .error en := by
      rw [hpq]; exact herr
    have hnd' : (pre' ++ [s]).Nodup := (List.nodup_cons.mp (by simpa using hnd)).2
    have hfb_notin : fb ∉ pre' ++ [s] := (List.nodup_cons.mp (by simpa using hnd)).1
    -- one failing step, then the chain continues on the updated state
    have hstep :
        fallbackLoop pname errMsg ((fb :: pre') ++ s :: post) u req tr =
        fallbackLoop pname errMsg (pre' ++ s :: post)
          (updateProviderMetrics u fb false (some en))
          { req with model := M fb }
          (tr ++ [{ providerName := fb, model := M fb, success := false }]) := by
      show fallbackLoop pname errMsg (fb :: (pre' ++ s :: post)) u req tr = _
      rw [fallbackLoop_cons, hp]
      dsimp only
      rw [hrw, hpb]
    set u1 := updateProviderMetrics u fb false (some en) with hu1
    have hM1 : ∀ n ∈ pre' ++ [s], firstModel u1 n = some (M n) := by
      intro n hn
      rw [hu1, firstModel_update]
      exact hM n (by simp [List.mem_append] at hn ⊢; tauto)
    have hpre1 : ∀ n ∈ pre', ∃ q', behaviorOf u1 n = some q' ∧
        ∃ e', q' { ({ req with model := M fb } : LLMRequest) with model := M n } =
          .error e' := by
      intro n hn
      obtain ⟨q', hq', e', he'⟩ := hpre n (by simp [hn])
      refine ⟨q', by rw [hu1, behaviorOf_update]; exact hq', e', ?_⟩
      rw [setModel_setModel]
      exact he'
    have hs1 : ∃ q', behaviorOf u1 s = some q' ∧
        ∃ resp, q' { ({ req with model := M fb } : LLMRequest) with model := M s } =
          .ok resp := by
      obtain ⟨q', hq', resp, hok⟩ := hs
      refine ⟨q', by rw [hu1, behaviorOf_update]; exact hq', resp, ?_⟩
      rw [setModel_setModel]
      exact hok
    obtain ⟨hout1, hreq1, hatt1, hpre_cnt1, hfailS1, hsuccS1, hother1⟩ :=
      ih s post M u1 { req with model := M fb }
        (tr ++ [{ providerName := fb, model := M fb, success := false }])
        hM1 hpre1 hs1 hnd'
    rw [hstep]
    have hfb_ne : ∀ n, n ∈ pre' ++ [s] → n ≠ fb := by
      intro n hn hc
      exact hfb_notin (hc ▸ hn)
    refine ⟨hout1, ?_, ?_, ?_, ?_, ?_, ?_⟩
    · rw [hreq1, setModel_setModel]
    · rw [hatt1]
      simp
    · intro n hn
      rcases List.mem_cons.mp hn with rfl | hn'
      · have h1 := hother1 n hfb_notin
        constructor
        · rw [h1.1, hu1, failedCount_update_fail_self u n (some en) p hp]
        · rw [h1.2, hu1, successCount_update_fail_self u n (some en)]
      · have h1 := hpre_cnt1 n hn'
        have hne : n ≠ fb := hfb_ne n (by simp [hn'])
        constructor
        · rw [h1.1, hu1, failedCount_update_ne u fb false (some en) n hne]
        · rw [h1.2, hu1, successCount_update_ne u fb false (some en) n hne]
    · rw [hfailS1, hu1,
        failedCount_update_ne u fb false (some en) s (hfb_ne s (by simp))]
    · rw [hsuccS1, hu1,
        successCount_update_ne u fb false (some en) s (hfb_ne s (by simp))]
    · intro n hn
      have hn1 : n ∉ pre' ++ [s] := by
        intro hc
        exact hn (by simp [List.mem_append] at hc ⊢; tauto)
      have hnfb : n ≠ fb := by
        intro hc
        exact hn (by simp [hc])
      have h1 := hother1 n hn1
      exact ⟨by rw [h1.1, hu1, failedCount_update_ne u fb false (some en) n hnfb],
        by rw [h1.2, hu1, successCount_update_ne u fb false (some en) n hnfb]⟩


/-! ## Structure of the fallback provider list -/

theorem candidateOf_some_elim (u : UnifiedLLMProvider) (primary : String)
    (c : ProviderConfig) (x : String × Int) (hfx : candidateOf u primary c = some x) :
    x = (c.name, c.prio) ∧ c.name ≠ primary ∧ c.enabled = true ∧
      ∃ p, lookupA u.providers c.name = some p ∧ p.supportsChat = true := by
  unfold candidateOf at hfx
  by_cases h1 : (c.name == primary || !c.enabled) = true
  · rw [if_pos h1] at hfx; cases hfx
  · rw [if_neg h1] at hfx
    have h1' : c.name ≠ primary ∧ c.enabled = true := by
      constructor
      · intro hc2
        exact h1 (by simp [hc2])
      · cases hce : c.enabled
        · exact absurd (by simp [hce]) h1
        · rfl
    cases hl : lookupA u.providers c.name with
    | none => rw [hl] at hfx; cases hfx
    | some p =>
      rw [hl] at hfx
      dsimp only at hfx
      by_cases h2 : (!p.supportsChat) = true
      · rw [if_pos h2] at hfx; cases hfx
      · rw [if_neg h2] at hfx
        injection hfx with h3
        exact ⟨h3.symm, h1'.1, h1'.2, p, rfl, by simpa using h2⟩

theorem filterMap_keys_sublist {α β : Type} (f : α → Option β) (g : β → String)
    (h : α → String) (hf : ∀ a b, f a = some b → g b = h a) :
    ∀ l : List α, List.Sublist ((l.filterMap f).map g) (l.map h) := by
  intro l
  induction l with
  | nil => simp
  | cons a t ih =>
    cases hfa : f a with
    | none =>
      rw [List.filterMap_cons, hfa, List.map_cons]
      exact ih.cons (h a)
    | some b =>
      rw [List.filterMap_cons, hfa, List.map_cons, List.map_cons, hf a b hfa]
      exact ih.cons₂ (h a)

theorem keys_fallbackCandidates_sublist (u : UnifiedLLMProvider) (primary : String) :
    List.Sublist ((fallbackCandidates u primary).map Prod.fst)
      (u.configs.map (fun c => c.name)) :=
  filterMap_keys_sublist (candidateOf u primary) Prod.fst (fun c => c.name)
    (fun c x hfx => by rw [(candidateOf_some_elim u primary c x hfx).1]) u.configs

theorem nodup_get_fallback_providers (u : UnifiedLLMProvider) (primary : String)
    (hcfg : (u.configs.map (fun c => c.name)).Nodup) :
    (get_fallback_providers u primary).Nodup := by
  unfold get_fallback_providers
  have h1 : ((fallbackCandidates u primary).map Prod.fst).Nodup :=
    hcfg.sublist (keys_fallbackCandidates_sublist u primary)
  have h2 := (perm_sortDescBy (fun x : String × Int => x.2)
    (fallbackCandidates u primary)).map Prod.fst
  exact h2.nodup_iff.mpr h1

theorem not_mem_get_fallback_providers (u : UnifiedLLMProvider) (primary : String) :
    primary ∉ get_fallback_providers u primary := by
  intro hmem
  unfold get_fallback_providers at hmem
  obtain ⟨x, hx, hx1⟩ := List.mem_map.mp hmem
  have hx' : x ∈ fallbackCandidates u primary :=
    (perm_sortDescBy (fun x : String × Int => x.2) _).mem_iff.mp hx
  obtain ⟨c, hc, hcx⟩ := List.mem_filterMap.mp hx'
  obtain ⟨hx2, hnp, _⟩ := candidateOf_some_elim u primary c x hcx
  exact hnp (by rw [← hx1, hx2])

theorem find_first_config (l : List ProviderConfig)
    (hnd : (l.map (fun c => c.name)).Nodup) (c : ProviderConfig) (hc : c ∈ l) :
    l.find? (fun x => x.name == c.name) = some c := by
  induction l with
  | nil => cases hc
  | cons a t ih =>
    rcases List.mem_cons.mp hc with rfl | hct
    · rw [List.find?_cons_of_pos _ (by simp)]
    · have hk : c.name ∈ t.map (fun c => c.name) := List.mem_map.mpr ⟨c, hct, rfl⟩
      have ha : a.name ≠ c.name := by
        intro hak
        have hk' : a.name ∈ t.map (fun c => c.name) := by rw [hak]; exact hk
        exact (List.nodup_cons.mp hnd).1 hk'
      rw [List.find?_cons_of_neg _ (by simpa using ha)]
      exact ih (List.nodup_cons.mp hnd).2 hct

theorem findConfig_eq_of_mem (u : UnifiedLLMProvider) (c : ProviderConfig)
    (hcfg : (u.configs.map (fun c => c.name)).Nodup) (hc : c ∈ u.configs) :
    findConfig u c.name = some c :=
  find_first_config u.configs hcfg c hc

theorem prioOfName_of_mem_candidates (u : UnifiedLLMProvider) (primary : String)
    (hcfg : (u.configs.map (fun c => c.name)).Nodup) (x : String × Int)
    (hx : x ∈ fallbackCandidates u primary) : prioOfName u x.1 = x.2 := by
  obtain ⟨c, hc, hcx⟩ := List.mem_filterMap.mp hx
  obtain ⟨hx2, _⟩ := candidateOf_some_elim u primary c x hcx
  subst hx2
  unfold prioOfName
  rw [findConfig_eq_of_mem u c hcfg hc]
  rfl

theorem sorted_get_fallback_providers (u : UnifiedLLMProvider) (primary : String)
    (hcfg : (u.configs.map (fun c => c.name)).Nodup) :
    (get_fallback_providers u primary).Pairwise
      (fun a b => prioOfName u b ≤ prioOfName u a) := by
  unfold get_fallback_providers
  apply List.pairwise_map.mpr
  have hp := pairwise_sortDescBy (fun x : String × Int => x.2) (fallbackCandidates u primary)
  refine List.Pairwise.imp_of_mem ?_ hp
  intro a b ha hb hR
  have ha' : a ∈ fallbackCandidates u primary :=
    (perm_sortDescBy (fun x : String × Int => x.2) _).mem_iff.mp ha
  have hb' : b ∈ fallbackCandidates u primary :=
    (perm_sortDescBy (fun x : String × Int => x.2) _).mem_iff.mp hb
  rw [prioOfName_of_mem_candidates u primary hcfg a ha',
    prioOfName_of_mem_candidates u primary hcfg b hb']
  exact hR


/-! ## C3 and C10: the fallback chain of generate -/

theorem generate_fallback_eq (u : UnifiedLLMProvider) (req : LLMRequest)
    (pn : Option String) (pname : String) (p : Provider) (e : String)
    (hres : resolveProvider u req pn = some pname)
    (hp : lookupA u.providers pname = some p)
    (he : p.behavior req = .error e) :
    generate u req pn true =
      fallbackLoop pname e (get_fallback_providers u pname)
        (updateProviderMetrics u pname false (some e)) req
        [{ providerName := pname, model := req.model, success := false }] := by
  unfold generate
  rw [hres]
  dsimp only
  rw [hp]
  dsimp only
  rw [he]
  rfl

/-- Claim C3: when the resolved primary provider's adapter fails with
fallback enabled and some fallback in the chain succeeds (every
attempted fallback having at least one configured model), generate
tries the remaining enabled registered chat-capable providers in
descending priority order, rewrites request.model to each one's first
configured model before its single attempt, attempts each provider at
most once (the attempted names are pairwise distinct), records exactly
one failure for the primary and for every fallback fallen through, and
exactly one success for the provider that serves the request. -/
theorem C3_fallback_chain (u : UnifiedLLMProvider) (req : LLMRequest)
    (pn : Option String) (pname : String) (p : Provider) (e : String)
    (pre : List String) (s : String) (post : List String) (M : String → String)
    (hcfg : (u.configs.map (fun c => c.name)).Nodup)
    (hres : resolveProvider u req pn = some pname)
    (hp : lookupA u.providers pname = some p)
    (he : p.behavior req = .error e)
    (hfbs : get_fallback_providers u pname = pre ++ s :: post)
    (hM : ∀ n ∈ pre ++ [s], firstModel u n = some (M n))
    (hpre : ∀ n ∈ pre, ∃ q, behaviorOf u n = some q ∧
      ∃ en, q { req with model := M n } = .error en)
    (hs : ∃ q, behaviorOf u s = some q ∧
      ∃ resp, q { req with model := M s } = .ok resp) :
    (∃ resp, (generate u req pn true).outcome = .ok resp) ∧
    (generate u req pn true).attempts =
      { providerName := pname, model := req.model, success := false } ::
        (pre.map (fun n => { providerName := n, model := M n, success := false }) ++
         [{ providerName := s, model := M s, success := true }]) ∧
    ((generate u req pn true).attempts.map (fun a => a.providerName)).Nodup ∧
    (get_fallback_providers u pname).Pairwise
      (fun a b => prioOfName u b ≤ prioOfName u a) ∧
    failedCount (generate u req pn true).state pname = failedCount u pname + 1 ∧
    successCount (generate u req pn true).state pname = successCount u pname ∧
    (∀ n ∈ pre,
      failedCount (generate u req pn true).state n = failedCount u n + 1 ∧
      successCount (generate u req pn true).state n = successCount u n) ∧
    failedCount (generate u req pn true).state s = failedCount u s ∧
    successCount (generate u req pn true).state s = successCount u s + 1 := by
  have hnd_fbs : (get_fallback_providers u pname).Nodup :=
    nodup_get_fallback_providers u pname hcfg
  have hsub : List.Sublist (pre ++ [s]) (pre ++ s :: post) :=
    List.Sublist.append (List.Sublist.refl pre) ((List.nil_sublist post).cons₂ s)
  have hnd : (pre ++ [s]).Nodup := by
    rw [hfbs] at hnd_fbs
    exact hnd_fbs.sublist hsub
  have hpname_notin : pname ∉ pre ++ [s] := by
    intro hc
    exact not_mem_get_fallback_providers u pname
      (by rw [hfbs]; exact hsub.subset hc)
  set u1 := updateProviderMetrics u pname false (some e) with hu1
  have hM1 : ∀ n ∈ pre ++ [s], firstModel u1 n = some (M n) := by
    intro n hn
    rw [hu1, firstModel_update]
    exact hM n hn
  have hpre1 : ∀ n ∈ pre, ∃ q, behaviorOf u1 n = some q ∧
      ∃ en, q { req with model := M n } = .error en := by
    intro n hn
    obtain ⟨q, hq, en, hen⟩ := hpre n hn
    exact ⟨q, by rw [hu1, behaviorOf_update]; exact hq, en, hen⟩
  have hs1 : ∃ q, behaviorOf u1 s = some q ∧
      ∃ resp, q { req with model := M s } = .ok resp := by
    obtain ⟨q, hq, resp, hok⟩ := hs
    exact ⟨q, by rw [hu1, behaviorOf_update]; exact hq, resp, hok⟩
  obtain ⟨hout, hreq, hatt, hprecnt, hfailS, hsuccS, hother⟩ :=
    fallbackLoop_first_success pname e pre s post M u1 req
      [{ providerName := pname, model := req.model, success := false }]
      hM1 hpre1 hs1 hnd
  have hgen := generate_fallback_eq u req pn pname p e hres hp he
  rw [hfbs] at hgen
  have hne_of_mem : ∀ n, n ∈ pre ++ [s] → n ≠ pname := by
    intro n hn hc
    exact hpname_notin (hc ▸ hn)
  refine ⟨?_, ?_, ?_, sorted_get_fallback_providers u pname hcfg, ?_, ?_, ?_, ?_, ?_⟩
  · rw [hgen]; exact hout
  · rw [hgen, hatt]; simp
  · rw [hgen, hatt]
    have hmap : (([({ providerName := pname, model := req.model, success := false } :
          Attempt)] ++
        pre.map (fun n =>
          ({ providerName := n, model := M n, success := false } : Attempt)) ++
        [({ providerName := s, model := M s, success := true } : Attempt)]).map
          (fun a => a.providerName)) = pname :: (pre ++ [s]) := by
      simp only [List.map_append, List.map_map, List.map_cons, List.map_nil,
        List.cons_append, List.nil_append, List.append_assoc]
      show pname :: (List.map (fun n => n) pre ++ [s]) = pname :: (pre ++ [s])
      simp
    rw [hmap]
    exact List.nodup_cons.mpr ⟨hpname_notin, hnd⟩
  · rw [hgen, (hother pname hpname_notin).1, hu1,
      failedCount_update_fail_self u pname (some e) p hp]
  · rw [hgen, (hother pname hpname_notin).2, hu1,
      successCount_update_fail_self u pname (some e)]
  · intro n hn
    have hne : n ≠ pname := hne_of_mem n (by simp [hn])
    constructor
    · rw [hgen, (hprecnt n hn).1, hu1,
        failedCount_update_ne u pname false (some e) n hne]
    · rw [hgen, (hprecnt n hn).2, hu1,
        successCount_update_ne u pname false (some e) n hne]
  · rw [hgen, hfailS, hu1,
      failedCount_update_ne u pname false (some e) s (hne_of_mem s (by simp))]
  · rw [hgen, hsuccS, hu1,
      successCount_update_ne u pname false (some e) s (hne_of_mem s (by simp))]

/-- Claim C10: generate mutates its request in place exactly when a
fallback serves it: a call served by the primary provider leaves the
request untouched, while a call served by a fallback provider with a
non-empty configured model list returns with request.model overwritten
by that provider's first configured model. -/
theorem C10_request_mutation (u : UnifiedLLMProvider) (req : LLMRequest)
    (pn : Option String) (pname : String) (p : Provider)
    (hres : resolveProvider u req pn = some pname)
    (hp : lookupA u.providers pname = some p) :
    (∀ resp, p.behavior req = .ok resp → (generate u req pn true).request = req) ∧
    (∀ e (pre : List String) (s : String) (post : List String) (M : String → String),
      p.behavior req = .error e →
      get_fallback_providers u pname = pre ++ s :: post →
      (∀ n ∈ pre ++ [s], firstModel u n = some (M n)) →
      (∀ n ∈ pre, ∃ q, behaviorOf u n = some q ∧
        ∃ en, q { req with model := M n } = .error en) →
      (∃ q, behaviorOf u s = some q ∧
        ∃ resp, q { req with model := M s } = .ok resp) →
      (pre ++ [s]).Nodup →
      (generate u req pn true).request = { req with model := M s }) := by
  constructor
  · intro resp hok
    unfold generate
    rw [hres]
    dsimp only
    rw [hp]
    dsimp only
    rw [hok]
  · intro e pre s post M he hfbs hM hpre hs hnd
    set u1 := updateProviderMetrics u pname false (some e) with hu1
    have hM1 : ∀ n ∈ pre ++ [s], firstModel u1 n = some (M n) := by
      intro n hn
      rw [hu1, firstModel_update]
      exact hM n hn
    have hpre1 : ∀ n ∈ pre, ∃ q, behaviorOf u1 n = some q ∧
        ∃ en, q { req with model := M n } = .error en := by
      intro n hn
      obtain ⟨q, hq, en, hen⟩ := hpre n hn
      exact ⟨q, by rw [hu1, behaviorOf_update]; exact hq, en, hen⟩
    have hs1 : ∃ q, behaviorOf u1 s = some q ∧
        ∃ resp, q { req with model := M s } = .ok resp := by
      obtain ⟨q, hq, resp, hok⟩ := hs
      exact ⟨q, by rw [hu1, behaviorOf_update]; exact hq, resp, hok⟩
    obtain ⟨_, hreq, _⟩ :=
      fallbackLoop_first_success pname e pre s post M u1 req
        [{ providerName := pname, model := req.model, success := false }]
        hM1 hpre1 hs1 hnd
    have hgen := generate_fallback_eq u req pn pname p e hres hp he
    rw [hfbs] at hgen
    rw [hgen]
    exact hreq


/-- Claim C3 witness: the chain theorem on the concrete three-provider
universe (a fails, then c with priority 95 fails, then b with priority
90 succeeds). -/
theorem C3_fallback_chain_witness :
    (∃ resp, (generate uChain reqDemo none true).outcome = .ok resp) ∧
    (generate uChain reqDemo none true).attempts =
      { providerName := "a", model := reqDemo.model, success := false } ::
        (["c"].map (fun n =>
          { providerName := n, model := modelOfDemo n, success := false }) ++
         [{ providerName := "b", model := modelOfDemo "b", success := true }]) ∧
    ((generate uChain reqDemo none true).attempts.map (fun a => a.providerName)).Nodup ∧
    (get_fallback_providers uChain "a").Pairwise
      (fun a b => prioOfName uChain b ≤ prioOfName uChain a) ∧
    failedCount (generate uChain reqDemo none true).state "a" =
      failedCount uChain "a" + 1 ∧
    successCount (generate uChain reqDemo none true).state "a" =
      successCount uChain "a" ∧
    (∀ n ∈ ["c"],
      failedCount (generate uChain reqDemo none true).state n =
        failedCount uChain n + 1 ∧
      successCount (generate uChain reqDemo none true).state n =
        successCount uChain n) ∧
    failedCount (generate uChain reqDemo none true).state "b" =
      failedCount uChain "b" ∧
    successCount (generate uChain reqDemo none true).state "b" =
      successCount uChain "b" + 1 :=
  C3_fallback_chain uChain reqDemo none "a" (provFail "E1") "E1" ["c"] "b" []
    modelOfDemo (by decide) rfl rfl rfl rfl
    (by
      intro n hn
      simp only [List.cons_append, List.nil_append, List.mem_cons,
        List.not_mem_nil, or_false] at hn
      rcases hn with rfl | rfl
      · rfl
      · rfl)
    (by
      intro n hn
      simp only [List.mem_singleton] at hn
      subst hn
      exact ⟨(provFail "E3").behavior, rfl, "E3", rfl⟩)
    ⟨provEcho.behavior, rfl,
      { id := "r1", model := modelOfDemo "b", content := "OK", providerName := "b" },
      rfl⟩

/-- Claim C10 witness: the request of the concrete chained call is left
with its model overwritten by the serving fallback's first configured
model; a primary-served call keeps its request intact. -/
theorem C10_request_mutation_witness :
    (generate uChain reqDemo none true).request =
      { reqDemo with model := modelOfDemo "b" } ∧
    (generate uChain { reqDemo with model := "m-b" } (some "b") true).request =
      { reqDemo with model := "m-b" } := by
  constructor
  · exact (C10_request_mutation uChain reqDemo none "a" (provFail "E1")
      rfl rfl).2 "E1" ["c"] "b" [] modelOfDemo rfl rfl
      (by
        intro n hn
        simp only [List.cons_append, List.nil_append, List.mem_cons,
          List.not_mem_nil, or_false] at hn
        rcases hn with rfl | rfl
        · rfl
        · rfl)
      (by
        intro n hn
        simp only [List.mem_singleton] at hn
        subst hn
        exact ⟨(provFail "E3").behavior, rfl, "E3", rfl⟩)
      ⟨provEcho.behavior, rfl,
        { id := "r1", model := modelOfDemo "b", content := "OK", providerName := "b" },
        rfl⟩
      (by decide)
  · exact (C10_request_mutation uChain { reqDemo with model := "m-b" } (some "b") "b"
      provEcho rfl rfl).1
      { id := "r1", model := "m-b", content := "OK", providerName := "b" } rfl


/-! ## C7: the fusion ranker -/

theorem dictSet_append_of_not_mem {β : Type} (l : List (String × β)) (k : String)
    (v : β) (h : k ∉ l.map Prod.fst) : dictSet l k v = l ++ [(k, v)] := by
  unfold dictSet
  rw [if_neg]
  rw [Option.isSome_iff_exists]
  rintro ⟨p, hp⟩
  have hpmem := List.find?_some hp
  have hmem := List.mem_of_find?_eq_some hp
  exact h (List.mem_map.mpr ⟨p, hmem, by simpa using hpmem⟩)

theorem lookupA_append_single_ne {β : Type} (l : List (String × β)) (k : String)
    (v : β) (k' : String) (h : k' ≠ k) :
    lookupA (l ++ [(k, v)]) k' = lookupA l k' := by
  rw [lookupA, List.find?_append]
  have h1 : ([(k, v)].find? (fun p => p.1 == k') = none) := by
    simp
    exact fun hc => h hc.symm
  cases hf : l.find? (fun p => p.1 == k') with
  | none => simp [hf, h1, lookupA]
  | some p => simp [hf, lookupA]

theorem denseFoldAux_eq (objId : MemoryItem → String) (nSparse : Nat) :
    ∀ (dense : List MemoryResult) (i : Nat) (acc : List (String × FusionEntry)),
      (memKeys objId dense).Nodup →
      (∀ kk ∈ memKeys objId dense, kk ∉ acc.map Prod.fst) →
      denseFoldAux objId nSparse i dense acc = acc ++ denseRows objId nSparse i dense := by
  intro dense
  induction dense with
  | nil => intro i acc _ _; simp [denseFoldAux, denseRows]
  | cons r rs ih =>
    intro i acc hnd hfresh
    have hk : itemKey objId r.item ∉ acc.map Prod.fst :=
      hfresh (itemKey objId r.item) (by simp [memKeys])
    have hnd' : (memKeys objId rs).Nodup := (List.nodup_cons.mp (by simpa [memKeys] using hnd)).2
    have hkrs : itemKey objId r.item ∉ memKeys objId rs :=
      (List.nodup_cons.mp (by simpa [memKeys] using hnd)).1
    unfold denseFoldAux
    rw [dictSet_append_of_not_mem acc (itemKey objId r.item) _ hk]
    rw [ih (i + 1) _ hnd' ?_]
    · rw [denseRows]
      simp
    · intro kk hkk
      rw [List.map_append, List.mem_append]
      rintro (hin | hin)
      · exact hfresh kk (List.mem_cons_of_mem _ hkk) hin
      · simp only [List.map_cons, List.map_nil, List.mem_singleton] at hin
        exact hkrs (hin ▸ hkk)

theorem lookupA_denseRows_of_not_mem (objId : MemoryItem → String) (nSparse : Nat) :
    ∀ (dense : List MemoryResult) (i : Nat) (k : String),
      k ∉ memKeys objId dense →
      lookupA (denseRows objId nSparse i dense) k = none := by
  intro dense
  induction dense with
  | nil => intro i k _; rfl
  | cons r rs ih =>
    intro i k hk
    have h1 : itemKey objId r.item ≠ k := by
      intro hc
      exact hk (by simp [memKeys, hc])
    rw [denseRows, lookupA, List.find?_cons_of_neg _ (by simpa using h1)]
    exact ih (i + 1) k (fun hc => hk (by simp [memKeys] at hc ⊢; exact Or.inr hc))

theorem lookupA_denseRows_of_mem (objId : MemoryItem → String) (nSparse : Nat) :
    ∀ (d1 : List MemoryResult) (rd : MemoryResult) (d2 : List MemoryResult) (i : Nat),
      itemKey objId rd.item ∉ memKeys objId d1 →
      lookupA (denseRows objId nSparse i (d1 ++ rd :: d2)) (itemKey objId rd.item) =
        some { item := rd.item, denseScore := rd.relevance_score,
               denseRank := i + d1.length, sparseScore := 0, sparseRank := nSparse } := by
  intro d1
  induction d1 with
  | nil =>
    intro rd d2 i _
    rw [List.nil_append, denseRows, lookupA, List.find?_cons_of_pos _ (by simp)]
    simp
  | cons a d1' ih =>
    intro rd d2 i hk
    have h1 : itemKey objId a.item ≠ itemKey objId rd.item := by
      intro hc
      exact hk (by simp [memKeys, hc.symm])
    have hk' : itemKey objId rd.item ∉ memKeys objId d1' := by
      intro hc
      exact hk (by simp [memKeys] at hc ⊢; exact Or.inr hc)
    rw [List.cons_append, denseRows, lookupA,
      List.find?_cons_of_neg _ (by simpa using h1)]
    show lookupA (denseRows objId nSparse (i + 1) (d1' ++ rd :: d2))
      (itemKey objId rd.item) = _
    rw [ih rd d2 (i + 1) hk']
    have harith : i + 1 + d1'.length = i + (a :: d1').length := by
      simp only [List.length_cons]
      omega
    rw [harith]


theorem dictUpsert_lookup_self (l : List (String × FusionEntry)) (k : String)
    (f : Option FusionEntry → FusionEntry) :
    lookupA (dictUpsert l k f) k = some (f (lookupA l k)) := by
  unfold dictUpsert
  cases hl : lookupA l k with
  | none =>
    have hf : l.find? (fun p => p.1 == k) = none := by
      rw [lookupA] at hl
      cases hfind : l.find? (fun p => p.1 == k) with
      | none => rfl
      | some p => rw [hfind] at hl; cases hl
    exact lookupA_append_single l k (f none) hf
  | some old =>
    rw [lookupA_mapSet l k (f (some old)), hl]
    rfl

theorem dictUpsert_lookup_ne (l : List (String × FusionEntry)) (k : String)
    (f : Option FusionEntry → FusionEntry) (k' : String) (h : k' ≠ k) :
    lookupA (dictUpsert l k f) k' = lookupA l k' := by
  unfold dictUpsert
  cases hl : lookupA l k with
  | none => exact lookupA_append_single_ne l k (f none) k' h
  | some old => exact lookupA_mapSet_ne l k (f (some old)) k' h

theorem sparseFoldAux_lookup_of_not_mem (objId : MemoryItem → String) (nDense : Nat) :
    ∀ (sparse : List MemoryResult) (j : Nat) (acc : List (String × FusionEntry))
      (k : String), k ∉ memKeys objId sparse →
      lookupA (sparseFoldAux objId nDense j sparse acc) k = lookupA acc k := by
  intro sparse
  induction sparse with
  | nil => intro j acc k _; rfl
  | cons r rs ih =>
    intro j acc k hk
    have h1 : k ≠ itemKey objId r.item := by
      intro hc
      exact hk (by simp [memKeys, hc])
    have h2 : k ∉ memKeys objId rs := by
      intro hc
      exact hk (by simp [memKeys] at hc ⊢; exact Or.inr hc)
    rw [sparseFoldAux, ih (j + 1) _ k h2, dictUpsert_lookup_ne _ _ _ k h1]

theorem sparseFoldAux_lookup_of_mem (objId : MemoryItem → String) (nDense : Nat) :
    ∀ (s1 : List MemoryResult) (rs : MemoryResult) (s2 : List MemoryResult)
      (j : Nat) (acc : List (String × FusionEntry)),
      itemKey objId rs.item ∉ memKeys objId s1 →
      itemKey objId rs.item ∉ memKeys objId s2 →
      lookupA (sparseFoldAux objId nDense j (s1 ++ rs :: s2) acc)
          (itemKey objId rs.item) =
        some (match lookupA acc (itemKey objId rs.item) with
          | some en =>
            { en with
              sparseScore := rs.relevance_score, sparseRank := j + s1.length }
          | none =>
            { item := rs.item, denseScore := 0, denseRank := nDense,
              sparseScore := rs.relevance_score, sparseRank := j + s1.length }) := by
  intro s1
  induction s1 with
  | nil =>
    intro rs s2 j acc _ h2
    rw [List.nil_append, sparseFoldAux,
      sparseFoldAux_lookup_of_not_mem objId nDense s2 (j + 1) _ _ h2,
      dictUpsert_lookup_self]
    cases lookupA acc (itemKey objId rs.item) with
    | none => simp
    | some en => simp
  | cons a s1' ih =>
    intro rs s2 j acc hk1 hk2
    have h1 : itemKey objId rs.item ≠ itemKey objId a.item := by
      intro hc
      exact hk1 (by simp [memKeys, hc.symm])
    have hk1' : itemKey objId rs.item ∉ memKeys objId s1' := by
      intro hc
      exact hk1 (by simp [memKeys] at hc ⊢; exact Or.inr hc)
    rw [List.cons_append, sparseFoldAux, ih rs s2 (j + 1) _ hk1' hk2,
      dictUpsert_lookup_ne _ _ _ _ h1]
    have harith : j + 1 + s1'.length = j + (a :: s1').length := by
      simp only [List.length_cons]
      omega
    rw [harith]


theorem not_mem_of_nodup_middle {α : Type} (l1 : List α) (a : α) (l2 : List α)
    (h : (l1 ++ a :: l2).Nodup) : a ∉ l1 ∧ a ∉ l2 := by
  rw [List.nodup_append] at h
  obtain ⟨h1, h2, hdisj⟩ := h
  exact ⟨fun hc => hdisj hc (List.mem_cons_self a l2),
    fun hc => (List.nodup_cons.mp h2).1 hc⟩

theorem fusionEntries_lookup_both (objId : MemoryItem → String)
    (d1 : List MemoryResult) (rd : MemoryResult) (d2 : List MemoryResult)
    (s1 : List MemoryResult) (rs : MemoryResult) (s2 : List MemoryResult)
    (hd : (memKeys objId (d1 ++ rd :: d2)).Nodup)
    (hs : (memKeys objId (s1 ++ rs :: s2)).Nodup)
    (hkey : itemKey objId rs.item = itemKey objId rd.item) :
    lookupA (fusionEntries objId (d1 ++ rd :: d2) (s1 ++ rs :: s2))
        (itemKey objId rd.item) =
      some { item := rd.item, denseScore := rd.relevance_score,
             denseRank := d1.length, sparseScore := rs.relevance_score,
             sparseRank := s1.length } := by
  have hkd := not_mem_of_nodup_middle (memKeys objId d1) (itemKey objId rd.item)
    (memKeys objId d2) (by simpa [memKeys] using hd)
  have hks := not_mem_of_nodup_middle (memKeys objId s1) (itemKey objId rs.item)
    (memKeys objId s2) (by simpa [memKeys] using hs)
  unfold fusionEntries
  rw [denseFoldAux_eq objId (s1 ++ rs :: s2).length (d1 ++ rd :: d2) 0 [] hd
    (by simp)]
  rw [List.nil_append]
  have hspec := sparseFoldAux_lookup_of_mem objId (d1 ++ rd :: d2).length s1 rs s2 0
    (denseRows objId (s1 ++ rs :: s2).length 0 (d1 ++ rd :: d2)) hks.1 hks.2
  rw [hkey] at hspec
  rw [hspec, lookupA_denseRows_of_mem objId (s1 ++ rs :: s2).length d1 rd d2 0 hkd.1]
  simp

theorem fusionEntries_lookup_dense_only (objId : MemoryItem → String)
    (d1 : List MemoryResult) (rd : MemoryResult) (d2 : List MemoryResult)
    (sparse : List MemoryResult)
    (hd : (memKeys objId (d1 ++ rd :: d2)).Nodup)
    (hno : itemKey objId rd.item ∉ memKeys objId sparse) :
    lookupA (fusionEntries objId (d1 ++ rd :: d2) sparse) (itemKey objId rd.item) =
      some { item := rd.item, denseScore := rd.relevance_score,
             denseRank := d1.length, sparseScore := 0,
             sparseRank := sparse.length } := by
  have hkd := not_mem_of_nodup_middle (memKeys objId d1) (itemKey objId rd.item)
    (memKeys objId d2) (by simpa [memKeys] using hd)
  unfold fusionEntries
  rw [denseFoldAux_eq objId sparse.length (d1 ++ rd :: d2) 0 [] hd (by simp)]
  rw [List.nil_append,
    sparseFoldAux_lookup_of_not_mem objId (d1 ++ rd :: d2).length sparse 0 _ _ hno,
    lookupA_denseRows_of_mem objId sparse.length d1 rd d2 0 hkd.1]
  simp

theorem fusionEntries_lookup_sparse_only (objId : MemoryItem → String)
    (dense : List MemoryResult)
    (s1 : List MemoryResult) (rs : MemoryResult) (s2 : List MemoryResult)
    (hd : (memKeys objId dense).Nodup)
    (hs : (memKeys objId (s1 ++ rs :: s2)).Nodup)
    (hno : itemKey objId rs.item ∉ memKeys objId dense) :
    lookupA (fusionEntries objId dense (s1 ++ rs :: s2)) (itemKey objId rs.item) =
      some { item := rs.item, denseScore := 0, denseRank := dense.length,
             sparseScore := rs.relevance_score, sparseRank := s1.length } := by
  have hks := not_mem_of_nodup_middle (memKeys objId s1) (itemKey objId rs.item)
    (memKeys objId s2) (by simpa [memKeys] using hs)
  unfold fusionEntries
  rw [denseFoldAux_eq objId (s1 ++ rs :: s2).length dense 0 [] hd (by simp)]
  rw [List.nil_append,
    sparseFoldAux_lookup_of_mem objId dense.length s1 rs s2 0 _ hks.1 hks.2,
    lookupA_denseRows_of_not_mem objId (s1 ++ rs :: s2).length dense 0 _ hno]
  simp

/-- Claim C7: the fusion ranker of retrieve_relevant_context assigns
every candidate the reciprocal-rank-fusion score
0.4/(60+dense_rank) + 0.3/(60+sparse_rank) + temporal_weight/(1+age)
with 0-based ranks (a candidate missing from one result list takes
that list's length as its rank there, the off-the-end position), and
the call returns the k highest-scoring contexts in descending score
order — a k-prefix of a descending-sorted permutation of all candidate
contexts. -/
theorem C7_fusion_scoring (objId : MemoryItem → String) (now tw : ℚ) (k : Nat)
    (dense sparse : List MemoryResult)
    (hd : (memKeys objId dense).Nodup)
    (hs : (memKeys objId sparse).Nodup) :
    (∀ (embed : String → List ℚ) (vs : List ℚ → Nat → List MemoryResult)
        (m : AdaptiveMemorySystem) (query : String),
      dense = vs (embed query) (k * 2) →
      sparse = sparse_search m.working query (k * 2) →
      AdaptiveMemorySystem.retrieve_relevant_context objId embed vs now m query k tw =
        fusion_rank objId dense sparse tw k now) ∧
    (∀ d1 rd d2 s1 rs s2, dense = d1 ++ rd :: d2 → sparse = s1 ++ rs :: s2 →
      itemKey objId rs.item = itemKey objId rd.item →
      ∃ en, lookupA (fusionEntries objId dense sparse) (itemKey objId rd.item) =
          some en ∧
        en.item = rd.item ∧
        (entryContext tw now en).relevance_score =
          (0.4 : ℚ) / (60 + (d1.length : ℚ)) + (0.3 : ℚ) / (60 + (s1.length : ℚ)) +
            tw * (1 / (1 + (now - rd.item.timestamp)))) ∧
    (∀ d1 rd d2, dense = d1 ++ rd :: d2 →
      itemKey objId rd.item ∉ memKeys objId sparse →
      ∃ en, lookupA (fusionEntries objId dense sparse) (itemKey objId rd.item) =
          some en ∧
        en.item = rd.item ∧
        (entryContext tw now en).relevance_score =
          (0.4 : ℚ) / (60 + (d1.length : ℚ)) + (0.3 : ℚ) / (60 + (sparse.length : ℚ)) +
            tw * (1 / (1 + (now - rd.item.timestamp)))) ∧
    (∀ s1 rs s2, sparse = s1 ++ rs :: s2 →
      itemKey objId rs.item ∉ memKeys objId dense →
      ∃ en, lookupA (fusionEntries objId dense sparse) (itemKey objId rs.item) =
          some en ∧
        en.item = rs.item ∧
        (entryContext tw now en).relevance_score =
          (0.4 : ℚ) / (60 + (dense.length : ℚ)) + (0.3 : ℚ) / (60 + (s1.length : ℚ)) +
            tw * (1 / (1 + (now - rs.item.timestamp)))) ∧
    (∃ ranked,
      List.Perm ranked
        ((fusionEntries objId dense sparse).map (fun p => entryContext tw now p.2)) ∧
      ranked.Pairwise (fun a b => b.relevance_score ≤ a.relevance_score) ∧
      fusion_rank objId dense sparse tw k now = ranked.take k) := by
  refine ⟨?_, ?_, ?_, ?_, ?_⟩
  · intro embed vs m query h1 h2
    rw [AdaptiveMemorySystem.retrieve_relevant_context, ← h1, ← h2]
  · intro d1 rd d2 s1 rs s2 h1 h2 hkey
    subst h1 h2
    refine ⟨_, fusionEntries_lookup_both objId d1 rd d2 s1 rs s2 hd hs hkey, rfl, ?_⟩
    simp only [entryContext]
    ring
  · intro d1 rd d2 h1 hno
    subst h1
    refine ⟨_, fusionEntries_lookup_dense_only objId d1 rd d2 sparse hd hno, rfl, ?_⟩
    simp only [entryContext]
    ring
  · intro s1 rs s2 h2 hno
    subst h2
    refine ⟨_, fusionEntries_lookup_sparse_only objId dense s1 rs s2 hd hs hno, rfl, ?_⟩
    simp only [entryContext]
    ring
  · exact ⟨sortDescBy (fun c => c.relevance_score)
      ((fusionEntries objId dense sparse).map (fun p => entryContext tw now p.2)),
      perm_sortDescBy _ _, pairwise_sortDescBy _ _, by rfl⟩


/-- Claim C7 witness: on a concrete dense/sparse pair, the candidate
appearing at dense rank 1 and sparse rank 0 receives exactly
0.4/61 + 0.3/60 + temporal_weight times its temporal decay. -/
theorem C7_fusion_scoring_witness :
    ∃ en, lookupA (fusionEntries objIdDemo denseDemo sparseDemo)
        (itemKey objIdDemo itemB) = some en ∧
      en.item = itemB ∧
      (entryContext (3/10) 2 en).relevance_score =
        (0.4 : ℚ) / 61 + (0.3 : ℚ) / 60 + (3/10 : ℚ) * (1/2) := by
  obtain ⟨en, h1, h2, h3⟩ :=
    (C7_fusion_scoring objIdDemo 2 (3/10) 2 denseDemo sparseDemo
      (by decide) (by decide)).2.1
      [{ item := itemA, relevance_score := 9/10 }]
      { item := itemB, relevance_score := 1/2 } []
      [] { item := itemB, relevance_score := 1 }
      [{ item := itemC, relevance_score := 1/3 }]
      rfl rfl rfl
  refine ⟨en, h1, h2, ?_⟩
  rw [h3]
  norm_num [itemB]

end SuperAgent
